import Mathlib

/-! # OBI ESP32-C3 firmware: the battery protocol engine

A shallow embedding of `src/main.cpp` (transaction engine, telemetry decoder,
battery session) and theorems about it.

Modelling conventions.

* The OneWire driver `makita` and the pack behind it are external.  A `Bus`
  answers a reset and a byte read as a function of everything that has happened
  so far (the trace of events, newest first), so a bus may react to the bytes
  written, to the enable line and to the delays.
* Every effect of the firmware on the outside (bus reset, byte written, byte
  read, enable line, delays) is appended to the trace.
* A C byte array reached through a pointer is a `Buf`: the memory as seen from
  the pointer, index 0 being the byte pointed at.  Local arrays are
  uninitialised in C, so their initial contents are an argument.
* `uint8_t`, `uint16_t`, `int16_t` are `Nat`/`Int` with explicit wrap-around
  where a conversion can change the value.
* A `float` is the rational number it denotes.  Every `float` operation is the
  exact operation followed by IEEE-754 binary32 rounding (to nearest, ties to
  even), as computed by `roundFloat`.
* The serial port is the queue of bytes received and the list of bytes written.
-/

namespace OBI

/-! ## The outside world -/

/-- One observable effect of the firmware. -/
inductive Event where
  | reset (presence : Bool)
  | write (b : Nat)
  | read (b : Nat)
  | enable (high : Bool)
  | delay (ms : Nat)
  | delayMicroseconds (us : Nat)
  deriving DecidableEq, Repr

/-- The trace of effects so far, newest first. -/
abbrev World := List Event

/-- The bus primitive together with the attached pack: what a reset detects and
what a byte read returns, given the history. -/
structure Bus where
  presence : World → Bool
  data : World → Nat

/-- Memory as seen from a `byte *`. -/
abbrev Buf := Nat → Nat

/-- The assignment `p[i] = v`. -/
def Buf.set (p : Buf) (i v : Nat) : Buf := fun j => if j = i then v else p j

/-- An initialised array such as `byte cmd[] = {0xAA, 0x00}`. -/
def Buf.ofList (l : List Nat) : Buf := fun i => l.getD i 0

/-- The pointer `&p[k]`. -/
def Buf.shift (p : Buf) (k : Nat) : Buf := fun i => p (k + i)

/-- The library call `memset(p, v, n)`. -/
def memset (p : Buf) (v n : Nat) : Buf := fun i => if i < n then v else p i

/-- The library call `memcpy(dst, src, n)`. -/
def memcpy (dst src : Buf) (n : Nat) : Buf := fun i => if i < n then src i else dst i

/-- The call `makita.reset()`: true when a presence pulse is detected. -/
def makita.reset (bus : Bus) (w : World) : Bool × World :=
  (bus.presence w, Event.reset (bus.presence w) :: w)

/-- The call `makita.write(b)`. -/
def makita.write (b : Nat) (w : World) : World := Event.write b :: w

/-- The call `makita.read()`, which returns a `uint8_t`. -/
def makita.read (bus : Bus) (w : World) : Nat × World :=
  (bus.data w % 256, Event.read (bus.data w % 256) :: w)

/-- The Arduino call `delay(ms)`. -/
def delay (ms : Nat) (w : World) : World := Event.delay ms :: w

/-- The Arduino call `delayMicroseconds(us)`. -/
def delayMicroseconds (us : Nat) (w : World) : World := Event.delayMicroseconds us :: w

/-- `setEnable`, main.cpp:176. -/
def setEnable (high : Bool) (w : World) : World := Event.enable high :: w

/-- `triggerPower`, main.cpp:180. -/
def triggerPower (w : World) : World :=
  delay 500 (setEnable true (delay 200 (setEnable false w)))

/-! ## Helpers of the source -/

/-- The C expression `(((x) & 0x0F) << 4 | ((x) & 0xF0) >> 4)`, main.cpp:63. -/
def SWAP_NIBBLES (x : Nat) : Nat := ((x &&& 0x0F) <<< 4) ||| ((x &&& 0xF0) >>> 4)

/-- The C expression `(uint16_t)lo | ((uint16_t)hi << 8)` on two bytes. -/
def le16 (lo hi : Nat) : Nat := lo ||| (hi <<< 8)

/-- Conversion of an `int` to `int16_t` (two's complement wrap-around). -/
def toInt16 (n : Nat) : Int :=
  if n % 65536 < 32768 then ((n % 65536 : Nat) : Int) else ((n % 65536 : Nat) : Int) - 65536

/-! ## `float` arithmetic -/

/-- Rounding to the nearest integer, ties to the even one. -/
def roundHalfEven (m : ℚ) : Int :=
  if m - (⌊m⌋ : ℚ) < 1 / 2 then ⌊m⌋
  else if 1 / 2 < m - (⌊m⌋ : ℚ) then ⌊m⌋ + 1
  else if ⌊m⌋ % 2 = 0 then ⌊m⌋ else ⌊m⌋ + 1

/-- The smallest spacing of `float` values, `2^-149`. -/
def minUlp : ℚ := 1 / 2 ^ 149

/-- Writes a non-negative `m * u` as mantissa times spacing: halves `m` (doubling
`u`) while `m` has more than 24 bits, doubles `m` (halving `u`) while it has
fewer and `u` is above the smallest spacing.  `m * u` stays the same. -/
def scaleToMantissa : Nat → ℚ → ℚ → ℚ × ℚ
  | 0, m, u => (m, u)
  | fuel + 1, m, u =>
    if 16777216 ≤ m then scaleToMantissa fuel (m / 2) (u * 2)
    else if m < 8388608 ∧ minUlp < u then scaleToMantissa fuel (m * 2) (u / 2)
    else (m, u)

/-- The `float` nearest to a non-negative rational: the mantissa is rounded to
an integer, ties to even.  300 scaling steps cover the whole range of `float`. -/
def roundFloatAbs (q : ℚ) : ℚ :=
  (roundHalfEven (scaleToMantissa 300 q 1).1 : ℚ) * (scaleToMantissa 300 q 1).2

/-- The `float` (IEEE-754 binary32) nearest to a rational, ties to even.  Values
beyond the largest finite `float` do not occur in this program. -/
def roundFloat (q : ℚ) : ℚ := if q < 0 then -roundFloatAbs (-q) else roundFloatAbs q

/-- Conversion of an `int` to `float`. -/
def intToFloat (z : Int) : ℚ := roundFloat (z : ℚ)

/-- The `float` quotient `x / y`. -/
def fdiv (x y : ℚ) : ℚ := roundFloat (x / y)

/-- The `float` sum `x + y`. -/
def fadd (x y : ℚ) : ℚ := roundFloat (x + y)

/-- The `float` difference `x - y`. -/
def fsub (x y : ℚ) : ℚ := roundFloat (x - y)

/-! ## Transaction engine -/

/-- The loop `for (i = i0; i < i0 + n; i++) { delayMicroseconds(90); rsp[i] = makita.read(); }`. -/
def readLoop (bus : Bus) : Nat → Nat → Buf → World → Buf × World
  | 0, _, rsp, w => (rsp, w)
  | n + 1, i, rsp, w =>
    readLoop bus n (i + 1) (rsp.set i (makita.read bus (delayMicroseconds 90 w)).1)
      (makita.read bus (delayMicroseconds 90 w)).2

/-- The loop `for (i = i0; i < i0 + n; i++) { delayMicroseconds(90); makita.write(cmd[i]); }`. -/
def writeLoop (cmd : Buf) : Nat → Nat → World → World
  | 0, _, w => w
  | n + 1, i, w => writeLoop cmd n (i + 1) (makita.write (cmd i) (delayMicroseconds 90 w))

/-- The validity scan `for (i = i0; i < i0 + n; i++) if (rsp[i] != 0xFF) { valid = true; break; }`,
returning the final `valid`. -/
def validLoop (rsp : Buf) : Nat → Nat → Bool
  | 0, _ => false
  | n + 1, i => if rsp i ≠ 0xFF then true else validLoop rsp n (i + 1)

/-- What a transaction hands back: the returned flag, the output buffer and
the trace. -/
structure TxResult where
  ok : Bool
  rsp : Buf
  world : World

/-- The retry loop of `cmdAndRead33` with `left` iterations to go, followed by
the code after the loop. -/
def cmdAndRead33.retry (bus : Bus) (cmd : Buf) (cmd_len rsp_len : Nat) :
    Nat → Buf → World → TxResult
  | 0, rsp, w => ⟨false, memset rsp 0xFF (rsp_len + 8), w⟩
  | left + 1, rsp, w =>
    if (makita.reset bus w).1 = false then
      cmdAndRead33.retry bus cmd cmd_len rsp_len left rsp (triggerPower (makita.reset bus w).2)
    else
      let w1 := makita.write 0x33 (delayMicroseconds 310 (makita.reset bus w).2)
      let r1 := readLoop bus 8 0 rsp w1
      let w2 := writeLoop cmd cmd_len 0 r1.2
      let r2 := readLoop bus rsp_len 8 r1.1 w2
      if validLoop r2.1 (rsp_len + 8) 0 then ⟨true, r2.1, r2.2⟩
      else cmdAndRead33.retry bus cmd cmd_len rsp_len left r2.1 r2.2

/-- `cmdAndRead33`, main.cpp:191.  `cmd_len` and `rsp_len` are `uint8_t`. -/
def cmdAndRead33 (bus : Bus) (cmd : Buf) (cmd_len : Nat) (rsp : Buf) (rsp_len : Nat)
    (w : World) : TxResult :=
  cmdAndRead33.retry bus cmd cmd_len rsp_len 3 rsp w

/-- The retry loop of `cmdAndReadCC` with `left` iterations to go, followed by
the code after the loop. -/
def cmdAndReadCC.retry (bus : Bus) (cmd : Buf) (cmd_len rsp_len : Nat) :
    Nat → Buf → World → TxResult
  | 0, rsp, w => ⟨false, memset rsp 0xFF rsp_len, w⟩
  | left + 1, rsp, w =>
    if (makita.reset bus w).1 = false then
      cmdAndReadCC.retry bus cmd cmd_len rsp_len left rsp (triggerPower (makita.reset bus w).2)
    else
      let w1 := makita.write 0xCC (delayMicroseconds 310 (makita.reset bus w).2)
      let w2 := writeLoop cmd cmd_len 0 w1
      let r2 := readLoop bus rsp_len 0 rsp w2
      if validLoop r2.1 rsp_len 0 then ⟨true, r2.1, r2.2⟩
      else cmdAndReadCC.retry bus cmd cmd_len rsp_len left r2.1 r2.2

/-- `cmdAndReadCC`, main.cpp:236.  `cmd_len` and `rsp_len` are `uint8_t`. -/
def cmdAndReadCC (bus : Bus) (cmd : Buf) (cmd_len : Nat) (rsp : Buf) (rsp_len : Nat)
    (w : World) : TxResult :=
  cmdAndReadCC.retry bus cmd cmd_len rsp_len 3 rsp w

/-! ## Text in `char` arrays -/

/-- The `printf` conversion `%02d` of a non-negative `int`: decimal, at least
two digits, padded with zeros on the left. -/
def fmt02d (n : Nat) : List Char := List.leftpad 2 '0' (Nat.toDigits 10 n)

/-- The `printf` conversion `%02X` of a non-negative `int`: upper-case
hexadecimal, at least two digits, padded with zeros on the left. -/
def fmt02X (n : Nat) : List Char := List.leftpad 2 '0' ((Nat.toDigits 16 n).map Char.toUpper)

/-- Copies `text` to `dst[i..]`, at most `room` characters, and terminates it. -/
def snprintf.put (dst : Buf) : Nat → Nat → List Char → Buf
  | 0, i, _ => dst.set i 0
  | _ + 1, i, [] => dst.set i 0
  | room + 1, i, c :: cs => snprintf.put (dst.set i (c.toNat % 256)) room (i + 1) cs

/-- The library call `snprintf(dst, size, ...)` once the format has been
expanded to `text`: at most `size - 1` characters and a terminating NUL. -/
def snprintf (dst : Buf) (size : Nat) (text : List Char) : Buf :=
  if size = 0 then dst else snprintf.put dst (size - 1) 0 text

/-- The text held in `p[i..]` up to the first NUL, looking at `n` bytes at most. -/
def cstr.scan (p : Buf) : Nat → Nat → List Char
  | 0, _ => []
  | n + 1, i => if p i = 0 then [] else Char.ofNat (p i) :: cstr.scan p n (i + 1)

/-- The C string held in a `char[size]` array. -/
def cstr (p : Buf) (size : Nat) : List Char := cstr.scan p size 0

/-! ## Battery snapshot and the three read operations -/

/-- `struct BatteryData`, main.cpp:73. -/
structure BatteryData where
  valid : Bool
  model : Buf
  locked : Bool
  chargeCount : Nat
  mfgDate : Buf
  capacity : ℚ
  errorCode : Nat
  romId : Buf
  packVoltage : ℚ
  cellVoltage : Nat → ℚ
  cellDiff : ℚ
  tempCell : ℚ
  tempMosfet : ℚ

/-- The snapshot after `memset(&batteryData, 0, sizeof(batteryData))`, main.cpp:123. -/
def BatteryData.zero : BatteryData where
  valid := false
  model := fun _ => 0
  locked := false
  chargeCount := 0
  mfgDate := fun _ => 0
  capacity := 0
  errorCode := 0
  romId := fun _ => 0
  packVoltage := 0
  cellVoltage := fun _ => 0
  cellDiff := 0
  tempCell := 0
  tempMosfet := 0

/-- What a read operation hands back: the returned flag, the global
`batteryData` and the trace. -/
structure ReadResult where
  ok : Bool
  bd : BatteryData
  world : World

/-- The assignment `batteryData.cellVoltage[i] = v`. -/
def setCell (cv : Nat → ℚ) (i : Nat) (v : ℚ) : Nat → ℚ := fun j => if j = i then v else cv j

/-- Conversion of an `int` to `uint16_t`. -/
def toUInt16 (n : Nat) : Nat := n % 65536

/-- `readBatteryInfo`, main.cpp:279.  `rsp` is the initial content of the local
array `byte rsp[48]`. -/
def readBatteryInfo (bus : Bus) (rsp : Buf) (bd : BatteryData) (w : World) : ReadResult :=
  let cmd := Buf.ofList [0xAA, 0x00]
  let r := cmdAndRead33 bus cmd 2 rsp 40 (delay 400 (setEnable true w))
  if r.ok then
    let romId := memcpy bd.romId r.rsp 8
    let msg := Buf.shift r.rsp 8
    let mfgDate := snprintf bd.mfgDate 16
      (['2', '0'] ++ fmt02d (romId 0) ++ ['-'] ++ fmt02d (romId 1) ++ ['-'] ++ fmt02d (romId 2))
    let rawCount := toUInt16
      (toUInt16 (SWAP_NIBBLES (msg 29)) ||| (toUInt16 (SWAP_NIBBLES (msg 28)) <<< 8))
    ⟨true,
     { bd with
       romId := romId
       mfgDate := mfgDate
       chargeCount := rawCount &&& 0x0FFF
       locked := decide ((msg 22 &&& 0x0F) > 0)
       errorCode := msg 21 &&& 0x0F
       capacity := fdiv (intToFloat (SWAP_NIBBLES (msg 18))) 10
       valid := true },
     setEnable false r.world⟩
  else ⟨false, bd, setEnable false r.world⟩

/-- The legacy ("F0513") probe written out inline at main.cpp:339-351 (and at
478-490 with the opcode `cmd`): wake sequence, opcode, two bytes read.  Returns
the first byte read, the second byte read and the trace. -/
def f0513Probe (bus : Bus) (opcode : Nat) (w : World) : Nat × Nat × World :=
  let w1 := delayMicroseconds 400 (makita.reset bus w).2
  let w2 := makita.write 0x99 (delayMicroseconds 90 (makita.write 0xCC w1))
  let w3 := delayMicroseconds 400 (makita.reset bus (delay 400 w2)).2
  let w4 := delayMicroseconds 90 (makita.write opcode w3)
  let first := makita.read bus w4
  let second := makita.read bus (delayMicroseconds 90 first.2)
  (first.1, second.1, second.2)

/-- `readBatteryModel`, main.cpp:324.  `rsp` is the initial content of the local
array `byte rsp[16]`. -/
def readBatteryModel (bus : Bus) (rsp : Buf) (bd : BatteryData) (w : World) : ReadResult :=
  let cmd := Buf.ofList [0xDC, 0x0C]
  let r := cmdAndReadCC bus cmd 2 rsp 10 (delay 400 (setEnable true w))
  if r.ok ∧ r.rsp 0 ≠ 0xFF then
    ⟨r.ok, { bd with model := (memcpy bd.model r.rsp 7).set 7 0 }, setEnable false r.world⟩
  else
    let probe := f0513Probe bus 0x31 r.world
    let b1 := probe.1
    let b0 := probe.2.1
    if b0 ≠ 0xFF ∧ b1 ≠ 0xFF then
      ⟨true, { bd with model := snprintf bd.model 16 (['B', 'L'] ++ fmt02X b1 ++ fmt02X b0) },
       setEnable false probe.2.2⟩
    else ⟨r.ok, bd, setEnable false probe.2.2⟩

/-- The running state of a max/min scan: the cell array, `maxV` and `minV`. -/
structure CellScan where
  cellVoltage : Nat → ℚ
  maxV : ℚ
  minV : ℚ

/-- The loop at main.cpp:376 with `n` iterations to go from index `i`:
decode cell `i` of the primary response, store it, update `maxV` and `minV`. -/
def primaryCells (rsp : Buf) : Nat → Nat → CellScan → CellScan
  | 0, _, s => s
  | n + 1, i, s =>
    let v : ℚ := fdiv (intToFloat (le16 (rsp (2 + i * 2)) (rsp (3 + i * 2)))) 1000
    primaryCells rsp n (i + 1)
      ⟨setCell s.cellVoltage i v, if v > s.maxV then v else s.maxV,
       if v < s.minV then v else s.minV⟩

/-- The running state of the legacy cell loop: `f0513_ok`, the local `rsp`, the
cell array and the trace. -/
structure LegacyScan where
  ok : Bool
  rsp : Buf
  cellVoltage : Nat → ℚ
  world : World

/-- The loop at main.cpp:396 with `n` iterations to go from index `i`: one
SkipRom exchange per cell, stopping at the first that fails. -/
def legacyCells (bus : Bus) : Nat → Nat → Buf → (Nat → ℚ) → World → LegacyScan
  | 0, _, rsp, cv, w => ⟨true, rsp, cv, w⟩
  | n + 1, i, rsp, cv, w =>
    let r := cmdAndReadCC bus (Buf.ofList [0x31 + i]) 1 rsp 2 w
    if r.ok then
      legacyCells bus n (i + 1) r.rsp
        (setCell cv i (fdiv (intToFloat (le16 (r.rsp 0) (r.rsp 1))) 1000)) r.world
    else ⟨false, r.rsp, cv, r.world⟩

/-- The running state of the loop at main.cpp:408: `sum`, `maxV` and `minV`. -/
structure SumScan where
  sum : ℚ
  maxV : ℚ
  minV : ℚ

/-- The loop at main.cpp:408 with `n` iterations to go from index `i`. -/
def legacySum (cv : Nat → ℚ) : Nat → Nat → SumScan → SumScan
  | 0, _, s => s
  | n + 1, i, s =>
    legacySum cv n (i + 1)
      ⟨fadd s.sum (cv i), if cv i > s.maxV then cv i else s.maxV,
       if cv i < s.minV then cv i else s.minV⟩

/-- `readBatteryVoltages`, main.cpp:363.  `rsp` is the initial content of the
local array `byte rsp[32]`. -/
def readBatteryVoltages (bus : Bus) (rsp : Buf) (bd : BatteryData) (w : World) : ReadResult :=
  let cmd := Buf.ofList [0xD7, 0x00, 0x00, 0xFF]
  let r := cmdAndReadCC bus cmd 4 rsp 29 (delay 400 (setEnable true w))
  if r.ok ∧ r.rsp 0 ≠ 0xFF then
    let scan := primaryCells r.rsp 5 0 ⟨bd.cellVoltage, 0, 5⟩
    let tempRaw : Int := toInt16 (r.rsp 14 ||| (r.rsp 15 <<< 8))
    let tempMosfetRaw : Int := toInt16 (r.rsp 16 ||| (r.rsp 17 <<< 8))
    ⟨r.ok,
     { bd with
       packVoltage := fdiv (intToFloat (le16 (r.rsp 0) (r.rsp 1))) 1000
       cellVoltage := scan.cellVoltage
       cellDiff := fsub scan.maxV scan.minV
       tempCell := fdiv (intToFloat tempRaw) 100
       tempMosfet := fdiv (intToFloat tempMosfetRaw) 100 },
     setEnable false r.world⟩
  else
    let cells := legacyCells bus 5 0 r.rsp bd.cellVoltage r.world
    if cells.ok then
      let s := legacySum cells.cellVoltage 5 0 ⟨0, 0, 5⟩
      let t := cmdAndReadCC bus (Buf.ofList [0x52]) 1 cells.rsp 2 cells.world
      if t.ok then
        ⟨true,
         { bd with
           cellVoltage := cells.cellVoltage
           packVoltage := s.sum
           cellDiff := fsub s.maxV s.minV
           tempCell := fdiv (intToFloat (le16 (t.rsp 0) (t.rsp 1))) 100
           tempMosfet := 0 },
         setEnable false t.world⟩
      else
        ⟨true,
         { bd with
           cellVoltage := cells.cellVoltage
           packVoltage := s.sum
           cellDiff := fsub s.maxV s.minV },
         setEnable false t.world⟩
    else ⟨r.ok, { bd with cellVoltage := cells.cellVoltage }, setEnable false cells.world⟩

/-! ## Serial bridge -/

/-- `OBI_VERSION_MAJOR`, main.cpp:40. -/
def OBI_VERSION_MAJOR : Nat := 1

/-- `OBI_VERSION_MINOR`, main.cpp:41. -/
def OBI_VERSION_MINOR : Nat := 0

/-- `OBI_VERSION_PATCH`, main.cpp:42. -/
def OBI_VERSION_PATCH : Nat := 0

/-- The memory at `p` once the bytes from `&p[k]` on have become `q`: what the
caller sees after a callee has worked on the pointer `&p[k]`. -/
def Buf.unshift (p : Buf) (k : Nat) (q : Buf) : Buf := fun i => if i < k then p i else q (i - k)

/-- The loop of `sendUSB` with `n` iterations to go from index `i`: the bytes
passed to `Serial.write`, in order. -/
def sendUSB.loop (rsp : Buf) : Nat → Nat → List Nat
  | 0, _ => []
  | n + 1, i => rsp i :: sendUSB.loop rsp n (i + 1)

/-- `sendUSB`, main.cpp:434.  The parameter `rsp_len` is a `byte`, so the
argument is converted to `uint8_t` on the way in.  Returns the bytes written to
the serial port. -/
def sendUSB (rsp : Buf) (rsp_len : Nat) : List Nat := sendUSB.loop rsp (rsp_len % 256) 0

/-- The payload loop at main.cpp:457 with `n` iterations to go from index `i`,
on the bytes still to arrive on the serial port.  `none` when the bytes run out:
`while (Serial.available() < 1) {}` then never ends. -/
def processSerialCommand.readData : Nat → Nat → Buf → List Nat → Option (Buf × List Nat)
  | 0, _, data, input => some (data, input)
  | _ + 1, _, _, [] => none
  | n + 1, i, data, b :: input =>
    processSerialCommand.readData n (i + 1) (data.set i (b % 256)) input

/-- The `switch (cmd)` at main.cpp:467: the memory of the local `rsp`, the local
`rsp_len` and the trace after it. -/
def processSerialCommand.dispatch (bus : Bus) (cmd : Nat) (data : Buf) (len : Nat) (rsp : Buf)
    (rsp_len : Nat) (w : World) : Buf × Nat × World :=
  if cmd = 0x01 then
    (((((rsp.set 0 0x01).set 1 rsp_len).set 2 OBI_VERSION_MAJOR).set 3 OBI_VERSION_MINOR).set 4
      OBI_VERSION_PATCH, rsp_len, w)
  else if cmd = 0x31 ∨ cmd = 0x32 then
    let probe := f0513Probe bus cmd w
    ((rsp.set 3 probe.1).set 2 probe.2.1, rsp_len, probe.2.2)
  else if cmd = 0x33 then
    let r := cmdAndRead33 bus data len (Buf.shift rsp 2) rsp_len w
    (Buf.unshift rsp 2 r.rsp, rsp_len, r.world)
  else if cmd = 0xCC then
    let r := cmdAndReadCC bus data len (Buf.shift rsp 2) rsp_len w
    (Buf.unshift rsp 2 r.rsp, rsp_len, r.world)
  else (rsp, 0, w)

/-- What one call of `processSerialCommand` leaves behind: the bytes written to
the serial port, the serial input not yet consumed, the memory from `rsp[0]` on
(the 255 bytes of the local array and whatever lies behind them) and the
trace. -/
structure SerialResult where
  out : List Nat
  input : List Nat
  rsp : Buf
  world : World

/-- `processSerialCommand`, main.cpp:440.  `input` holds the bytes of the serial
port, oldest first (each is taken as a byte); `data` and `rsp` are the initial
contents of the local arrays.  `none` when the call blocks forever waiting for
payload bytes. -/
def processSerialCommand (bus : Bus) (data rsp : Buf) (input : List Nat) (w : World) :
    Option SerialResult :=
  match input with
  | start :: len :: rsp_len :: cmd :: payload =>
    if start % 256 ≠ 0x01 then some ⟨[], len :: rsp_len :: cmd :: payload, rsp, w⟩
    else
      match processSerialCommand.readData (len % 256) 0 data payload with
      | none => none
      | some (data1, input1) =>
        let d := processSerialCommand.dispatch bus (cmd % 256) data1 (len % 256) rsp
          (rsp_len % 256) (delay 400 (setEnable true w))
        let rsp1 := (d.1.set 0 (cmd % 256)).set 1 d.2.1
        some ⟨sendUSB rsp1 (d.2.1 + 2), input1, rsp1, setEnable false d.2.2⟩
  | _ => some ⟨[], input, rsp, w⟩

/-! ## Vocabulary of the statements -/

/-- The largest of the five cell readings. -/
def maxCell (cv : Nat → ℚ) : ℚ := max (cv 0) (max (cv 1) (max (cv 2) (max (cv 3) (cv 4))))

/-- The smallest of the five cell readings. -/
def minCell (cv : Nat → ℚ) : ℚ := min (cv 0) (min (cv 1) (min (cv 2) (min (cv 3) (cv 4))))

/-- The number of bus resets in a trace. -/
def resetCount (w : World) : Nat :=
  (w.filter fun e => match e with | Event.reset _ => true | _ => false).length

/-- The number of bytes read from the bus in a trace. -/
def readCount (w : World) : Nat :=
  (w.filter fun e => match e with | Event.read _ => true | _ => false).length

/-- A bus that plays back a script: the k-th reset detects `resets[k]` (presence
once the script is over), the k-th read returns `bytes[k]` (idle, 0xFF, once the
script is over). -/
def scriptedBus (resets : List Bool) (bytes : List Nat) : Bus where
  presence := fun w => resets.getD (resetCount w) true
  data := fun w => bytes.getD (readCount w) 0xFF

/-- The upper-case hexadecimal digit of a value below 16. -/
def hexDigitUpper (d : Nat) : Char :=
  ['0', '1', '2', '3', '4', '5', '6', '7', '8', '9', 'A', 'B', 'C', 'D', 'E', 'F'].getD d '?'

/-- The decimal digit of a value below 10. -/
def decDigit (d : Nat) : Char := ['0', '1', '2', '3', '4', '5', '6', '7', '8', '9'].getD d '?'

/-- A 16-bit value read as signed two's complement. -/
def signed16 (v : Nat) : Int := if v < 32768 then (v : Int) else (v : Int) - 65536

/-- The number of bytes written to the bus in a trace. -/
def writeCount (w : World) : Nat :=
  (w.filter fun e => match e with | Event.write _ => true | _ => false).length

/-- The number of bus resets in a trace that detected no presence. -/
def failedResetCount (w : World) : Nat :=
  (w.filter fun e => match e with | Event.reset false => true | _ => false).length

/-- The number of times a trace drives the enable line to the given level. -/
def enableCount (high : Bool) (w : World) : Nat :=
  (w.filter fun e => match e with | Event.enable b => b == high | _ => false).length

/-- The level the enable line was last driven to, if it was driven at all. -/
def enableLine : World → Option Bool
  | [] => none
  | Event.enable high :: _ => some high
  | _ :: w => enableLine w

/-- The bytes read from the bus in a trace, oldest first. -/
def readsOf : World → List Nat
  | [] => []
  | Event.read b :: w => readsOf w ++ [b]
  | _ :: w => readsOf w

/-- One of the three read operations of the battery session. -/
inductive ReadOp where
  | info
  | model
  | voltages
  deriving DecidableEq, Repr

/-- Runs one read operation; `rsp` is the initial content of its local array. -/
def runOp (bus : Bus) (op : ReadOp) (rsp : Buf) (bd : BatteryData) (w : World) : ReadResult :=
  match op with
  | ReadOp.info => readBatteryInfo bus rsp bd w
  | ReadOp.model => readBatteryModel bus rsp bd w
  | ReadOp.voltages => readBatteryVoltages bus rsp bd w

/-- What a sequence of read operations hands back: the flags returned, in call
order, the global `batteryData` and the trace. -/
structure SessionResult where
  flags : List Bool
  bd : BatteryData
  world : World

/-- Runs a finite sequence of read operations one after the other on the global
`batteryData`. -/
def runOps (bus : Bus) : List (ReadOp × Buf) → BatteryData → World → SessionResult
  | [], bd, w => ⟨[], bd, w⟩
  | (op, rsp) :: ops, bd, w =>
    let r := runOp bus op rsp bd w
    let s := runOps bus ops r.bd r.world
    ⟨r.ok :: s.flags, s.bd, s.world⟩

/-! ## Scenarios -/

/-- A local array whose bytes all happen to be zero on entry. -/
def zeroBuf : Buf := fun _ => 0

/-- A pack that is present and never drives the bus: every byte reads 0xFF. -/
def busIdle : Bus := scriptedBus [] []

/-- A primary-generation pack reporting 30000 mV for the pack and 6000 mV for
each of the five cells. -/
def busSixVoltPrimary : Bus :=
  scriptedBus [] [0x30, 0x75, 0x70, 0x17, 0x70, 0x17, 0x70, 0x17, 0x70, 0x17, 0x70, 0x17,
    0x00, 0x00, 0xF6, 0x09, 0xC2, 0x0B]

/-- A legacy-generation pack (the primary query, 3 x 29 bytes, stays idle)
reporting 6000 mV for each of the five cells and a temperature. -/
def busSixVoltLegacy : Bus :=
  scriptedBus [] (List.replicate 87 0xFF ++
    [0x70, 0x17, 0x70, 0x17, 0x70, 0x17, 0x70, 0x17, 0x70, 0x17, 0xF6, 0x09])

/-- A pack whose answer starts with the idle byte 0xFF followed by 0x00, and
which is idle from then on. -/
def busFirstIdle : Bus := scriptedBus [] [0xFF, 0x00]

/-- A legacy-generation pack (the primary query, 3 x 29 bytes, stays idle) that
answers the first cell query with 3700 mV and nothing after it. -/
def busOneCell : Bus := scriptedBus [] (List.replicate 87 0xFF ++ [0x74, 0x0E])

/-- The 29-byte primary voltage response for pack 18500 mV, cells 3700, 3700,
3705, 3690, 3705 mV, cell temperature raw 2550 and MOSFET temperature raw 3010. -/
def primaryFrame : List Nat :=
  [0x44, 0x48, 0x74, 0x0E, 0x74, 0x0E, 0x79, 0x0E, 0x6A, 0x0E, 0x79, 0x0E, 0x00, 0x00,
   0xF6, 0x09, 0xC2, 0x0B, 0, 0, 0, 0, 0, 0, 0, 0, 0, 0, 0]

/-- A primary-generation pack answering with `primaryFrame`. -/
def busPrimary : Bus := scriptedBus [] primaryFrame

/-- A primary-generation pack answering the first voltage read with
`primaryFrame`, replaced before the second read by a legacy-generation pack
that answers the five cell queries with 3700 mV each and not the temperature
query. -/
def busSwapped : Bus :=
  scriptedBus [] (primaryFrame ++ List.replicate 87 0xFF ++
    [0x74, 0x0E, 0x74, 0x0E, 0x74, 0x0E, 0x74, 0x0E, 0x74, 0x0E])

/-- A pack whose identity/status response is zero except for 0x12 at message
offset 28 and 0x34 at message offset 29. -/
def busChargeCount : Bus := scriptedBus [] (List.replicate 36 0 ++ [0x12, 0x34])

/-- A pack whose identity/status response is zero except for 0x34 at message
offset 28 and 0x12 at message offset 29. -/
def busChargeSwapped : Bus := scriptedBus [] (List.replicate 36 0 ++ [0x34, 0x12])

/-- A legacy-generation pack: the primary model query (3 x 10 bytes) stays idle
and the fallback probe reads 0x05 then 0x13. -/
def busModelLegacy : Bus := scriptedBus [] (List.replicate 30 0xFF ++ [0x05, 0x13])

/-- A pack whose ROM identity starts with 25, 3, 9 and is idle afterwards. -/
def busDate : Bus := scriptedBus [] [25, 3, 9]

/-- No pack: no reset detects presence and every byte reads 0xFF. -/
def busAbsent : Bus where
  presence := fun _ => false
  data := fun _ => 0xFF

/-- A pack that misses the first reset and answers 0xA5 from then on. -/
def busLateAnswer : Bus := scriptedBus [false] (List.replicate 64 0xA5)

/-- A pack that is present and answers every byte with 0xA5. -/
def busAnswering : Bus := scriptedBus [] (List.replicate 300 0xA5)

set_option maxRecDepth 100000

/-! ## Facts about `float` rounding -/

/-- Rounding leaves an integer as it is. -/
theorem roundHalfEven_intCast (z : Int) : roundHalfEven (z : ℚ) = z := by
  unfold roundHalfEven
  rw [Int.floor_intCast, sub_self, if_pos (by norm_num)]

/-- Rounding a non-negative number gives a non-negative integer. -/
theorem roundHalfEven_nonneg (m : ℚ) (h : 0 ≤ m) : 0 ≤ roundHalfEven m := by
  have hf : 0 ≤ ⌊m⌋ := Int.floor_nonneg.mpr h
  unfold roundHalfEven
  split_ifs <;> omega

/-- A natural number below `2^24` is scaled and rounded without loss. -/
theorem scaleToMantissa_natCast (fuel k : Nat) (u : ℚ) (h : k < 16777216) :
    (roundHalfEven (scaleToMantissa fuel (k : ℚ) u).1 : ℚ) * (scaleToMantissa fuel (k : ℚ) u).2
      = (k : ℚ) * u := by
  induction fuel generalizing k u with
  | zero =>
    simp only [scaleToMantissa]
    rw [show ((k : ℚ)) = ((k : Int) : ℚ) from (Int.cast_natCast k).symm, roundHalfEven_intCast]
  | succ fuel ih =>
    rw [scaleToMantissa]
    have hk : ¬ ((16777216 : ℚ) ≤ (k : ℚ)) := by
      rw [not_le]; exact_mod_cast h
    rw [if_neg hk]
    split_ifs with h2
    · have h2k : (k : ℚ) < 8388608 := h2.1
      have hk2 : k * 2 < 16777216 := by
        have : k < 8388608 := by exact_mod_cast h2k
        omega
      have := ih (k * 2) (u / 2) hk2
      rw [Nat.cast_mul, Nat.cast_ofNat] at this
      rw [this]
      ring
    · rw [show ((k : ℚ)) = ((k : Int) : ℚ) from (Int.cast_natCast k).symm, roundHalfEven_intCast]

/-- Scaling and rounding a non-negative number gives a non-negative number. -/
theorem scaleToMantissa_nonneg (fuel : Nat) (m u : ℚ) (hm : 0 ≤ m) (hu : 0 < u) :
    0 ≤ (roundHalfEven (scaleToMantissa fuel m u).1 : ℚ) * (scaleToMantissa fuel m u).2 := by
  induction fuel generalizing m u with
  | zero =>
    simp only [scaleToMantissa]
    exact mul_nonneg (by exact_mod_cast roundHalfEven_nonneg m hm) (le_of_lt hu)
  | succ fuel ih =>
    rw [scaleToMantissa]
    split_ifs
    · exact ih _ _ (by positivity) (by positivity)
    · exact ih _ _ (by positivity) (by positivity)
    · exact mul_nonneg (by exact_mod_cast roundHalfEven_nonneg m hm) (le_of_lt hu)

/-- The `float` nearest to a non-negative number is non-negative. -/
theorem roundFloat_nonneg (q : ℚ) (h : 0 ≤ q) : 0 ≤ roundFloat q := by
  unfold roundFloat
  rw [if_neg (not_lt.mpr h)]
  exact scaleToMantissa_nonneg 300 q 1 h one_pos

/-- A natural number below `2^24` is a `float`: rounding leaves it as it is. -/
theorem roundFloat_natCast (n : Nat) (h : n < 16777216) : roundFloat (n : ℚ) = n := by
  unfold roundFloat
  rw [if_neg (not_lt.mpr (Nat.cast_nonneg n))]
  unfold roundFloatAbs
  rw [scaleToMantissa_natCast 300 n 1 h, mul_one]

/-- An integer of magnitude below `2^24` is a `float`: rounding leaves it as it is. -/
theorem roundFloat_intCast (z : Int) (h : z.natAbs < 16777216) : roundFloat (z : ℚ) = z := by
  by_cases hz : 0 ≤ z
  · obtain ⟨n, rfl⟩ := Int.eq_ofNat_of_zero_le hz
    rw [Int.cast_natCast]
    exact roundFloat_natCast n (by simpa using h)
  · have hneg : (z : ℚ) < 0 := by exact_mod_cast (not_le.mp hz)
    have habs : -(z : ℚ) = ((z.natAbs : Nat) : ℚ) := by
      have : (z.natAbs : Int) = -z := by omega
      have h2 : ((z.natAbs : Int) : ℚ) = ((-z : Int) : ℚ) := by rw [this]
      rw [Int.cast_natCast, Int.cast_neg] at h2
      exact h2.symm
    unfold roundFloat
    rw [if_pos hneg, habs]
    have := roundFloat_natCast z.natAbs h
    unfold roundFloat at this
    rw [if_neg (not_lt.mpr (Nat.cast_nonneg _))] at this
    rw [this, ← habs, neg_neg]

/-- The conversion of a 16-bit unsigned value to `float` is exact. -/
theorem intToFloat_natCast (n : Nat) (h : n < 65536) : intToFloat (n : Int) = (n : ℚ) := by
  unfold intToFloat
  rw [Int.cast_natCast]
  exact roundFloat_natCast n (by omega)

/-- The conversion of an `int16_t` value to `float` is exact. -/
theorem intToFloat_signed16 (v : Nat) (h : v < 65536) :
    intToFloat (signed16 v) = (signed16 v : ℚ) := by
  unfold intToFloat
  apply roundFloat_intCast
  unfold signed16
  split_ifs <;> omega

/-- Scaling keeps the product of mantissa and spacing. -/
theorem scaleToMantissa_value (fuel : Nat) (m u : ℚ) :
    (scaleToMantissa fuel m u).1 * (scaleToMantissa fuel m u).2 = m * u := by
  induction fuel generalizing m u with
  | zero => simp only [scaleToMantissa]
  | succ fuel ih =>
    rw [scaleToMantissa]
    split_ifs
    · rw [ih]; ring
    · rw [ih]; ring
    · rfl

/-- Scaling keeps the spacing positive. -/
theorem scaleToMantissa_spacing_pos (fuel : Nat) (m u : ℚ) (hu : 0 < u) :
    0 < (scaleToMantissa fuel m u).2 := by
  induction fuel generalizing m u with
  | zero => simpa only [scaleToMantissa] using hu
  | succ fuel ih =>
    rw [scaleToMantissa]
    split_ifs
    · exact ih _ _ (by positivity)
    · exact ih _ _ (by positivity)
    · exact hu

/-- Rounding moves a number by at most one half. -/
theorem roundHalfEven_near (m : ℚ) : |(roundHalfEven m : ℚ) - m| ≤ 1 / 2 := by
  have h1 : (⌊m⌋ : ℚ) ≤ m := Int.floor_le m
  have h2 : m < (⌊m⌋ : ℚ) + 1 := Int.lt_floor_add_one m
  unfold roundHalfEven
  rw [abs_le]
  split_ifs with ha hb hc
  · constructor <;> linarith
  · push_cast; constructor <;> linarith
  · constructor <;> linarith
  · push_cast; constructor <;> linarith

/-- The `float` nearest to a non-negative rational differs from it by at most
half the spacing of `float` values at its magnitude. -/
theorem roundFloatAbs_near (q : ℚ) :
    |roundFloatAbs q - q| ≤ (scaleToMantissa 300 q 1).2 / 2 := by
  have hv := scaleToMantissa_value 300 q 1
  have hu := scaleToMantissa_spacing_pos 300 q 1 one_pos
  have hr := roundHalfEven_near (scaleToMantissa 300 q 1).1
  unfold roundFloatAbs
  rw [mul_one] at hv
  have : (roundHalfEven (scaleToMantissa 300 q 1).1 : ℚ) * (scaleToMantissa 300 q 1).2 - q
      = ((roundHalfEven (scaleToMantissa 300 q 1).1 : ℚ) - (scaleToMantissa 300 q 1).1)
        * (scaleToMantissa 300 q 1).2 := by
    rw [sub_mul, hv]
  rw [this, abs_mul, abs_of_pos hu]
  calc |(roundHalfEven (scaleToMantissa 300 q 1).1 : ℚ) - (scaleToMantissa 300 q 1).1|
        * (scaleToMantissa 300 q 1).2
      ≤ 1 / 2 * (scaleToMantissa 300 q 1).2 := mul_le_mul_of_nonneg_right hr (le_of_lt hu)
    _ = (scaleToMantissa 300 q 1).2 / 2 := by ring

/-! ## Basic facts about the loops -/

theorem resetCount_cons (e : Event) (w : World) :
    resetCount (e :: w) = resetCount w + (match e with | Event.reset _ => 1 | _ => 0) := by
  cases e <;> simp [resetCount]

theorem readCount_cons (e : Event) (w : World) :
    readCount (e :: w) = readCount w + (match e with | Event.read _ => 1 | _ => 0) := by
  cases e <;> simp [readCount]

theorem readLoop_resetCount (bus : Bus) (n i : Nat) (rsp : Buf) (w : World) :
    resetCount (readLoop bus n i rsp w).2 = resetCount w := by
  induction n generalizing i rsp w with
  | zero => rfl
  | succ n ih => simp [readLoop, ih, makita.read, delayMicroseconds, resetCount_cons]

theorem readLoop_readCount (bus : Bus) (n i : Nat) (rsp : Buf) (w : World) :
    readCount (readLoop bus n i rsp w).2 = readCount w + n := by
  induction n generalizing i rsp w with
  | zero => rfl
  | succ n ih =>
    simp [readLoop, ih, makita.read, delayMicroseconds, readCount_cons]
    omega

theorem writeLoop_resetCount (cmd : Buf) (n i : Nat) (w : World) :
    resetCount (writeLoop cmd n i w) = resetCount w := by
  induction n generalizing i w with
  | zero => rfl
  | succ n ih => simp [writeLoop, ih, makita.write, delayMicroseconds, resetCount_cons]

theorem writeLoop_readCount (cmd : Buf) (n i : Nat) (w : World) :
    readCount (writeLoop cmd n i w) = readCount w := by
  induction n generalizing i w with
  | zero => rfl
  | succ n ih => simp [writeLoop, ih, makita.write, delayMicroseconds, readCount_cons]

/-- Outside the index range it fills, `readLoop` leaves the buffer alone. -/
theorem readLoop_buf_outside (bus : Bus) (n i : Nat) (rsp : Buf) (w : World) (j : Nat)
    (hj : j < i ∨ i + n ≤ j) : (readLoop bus n i rsp w).1 j = rsp j := by
  induction n generalizing i rsp w with
  | zero => rfl
  | succ n ih =>
    rw [readLoop, ih _ _ _ (by omega)]
    simp only [Buf.set]
    rw [if_neg (by omega)]

/-- On an idle bus `readLoop` fills its index range with 0xFF. -/
theorem readLoop_buf_idle (bus : Bus) (hd : ∀ h, (makita.read bus h).1 = 0xFF)
    (n i : Nat) (rsp : Buf) (w : World) (j : Nat) (h1 : i ≤ j) (h2 : j < i + n) :
    (readLoop bus n i rsp w).1 j = 0xFF := by
  induction n generalizing i rsp w with
  | zero => omega
  | succ n ih =>
    rw [readLoop]
    by_cases hij : j = i
    · rw [readLoop_buf_outside _ _ _ _ _ _ (by omega)]
      simp [Buf.set, hij, hd]
    · exact ih _ _ _ (by omega) (by omega)

/-- The validity scan finds nothing in a range that holds only 0xFF. -/
theorem validLoop_idle (rsp : Buf) (n i : Nat)
    (h : ∀ j, i ≤ j → j < i + n → rsp j = 0xFF) : validLoop rsp n i = false := by
  induction n generalizing i with
  | zero => rfl
  | succ n ih =>
    rw [validLoop, if_neg (by simp [h i (le_refl i) (by omega)])]
    exact ih _ (fun j h1 h2 => h j (by omega) (by omega))

/-- When the validity scan finds nothing, the range holds only 0xFF. -/
theorem validLoop_false (rsp : Buf) (n i : Nat) (h : validLoop rsp n i = false) :
    ∀ j, i ≤ j → j < i + n → rsp j = 0xFF := by
  induction n generalizing i with
  | zero => intro j h1 h2; omega
  | succ n ih =>
    rw [validLoop] at h
    by_cases hi : rsp i = 0xFF
    · rw [if_neg (by simp [hi])] at h
      intro j h1 h2
      by_cases hj : j = i
      · rw [hj]; exact hi
      · exact ih _ h j (by omega) (by omega)
    · rw [if_pos hi] at h
      exact absurd h (by simp)

/-- On an idle bus with a pack present, the SkipRom retry loop runs all its
iterations and fails. -/
theorem cmdAndReadCC_retry_idle (bus : Bus) (hp : ∀ h, (makita.reset bus h).1 = true)
    (hd : ∀ h, (makita.read bus h).1 = 0xFF) (cmd : Buf) (cmd_len rsp_len left : Nat)
    (rsp : Buf) (w : World) :
    (cmdAndReadCC.retry bus cmd cmd_len rsp_len left rsp w).ok = false ∧
    resetCount (cmdAndReadCC.retry bus cmd cmd_len rsp_len left rsp w).world
      = resetCount w + left ∧
    readCount (cmdAndReadCC.retry bus cmd cmd_len rsp_len left rsp w).world
      = readCount w + left * rsp_len ∧
    ∀ i, i < rsp_len → (cmdAndReadCC.retry bus cmd cmd_len rsp_len left rsp w).rsp i = 0xFF := by
  induction left generalizing rsp w with
  | zero =>
    simp only [cmdAndReadCC.retry, memset, Nat.add_zero, Nat.zero_mul, true_and]
    intro i hi
    rw [if_pos hi]
  | succ left ih =>
    rw [cmdAndReadCC.retry, if_neg (by simp [hp])]
    simp only []
    rw [validLoop_idle _ _ _ (fun j h1 h2 => readLoop_buf_idle bus hd _ _ _ _ j h1 h2)]
    simp only [Bool.false_eq_true, if_false]
    refine ⟨(ih _ _).1, ?_, ?_, (ih _ _).2.2.2⟩
    · rw [(ih _ _).2.1, readLoop_resetCount, writeLoop_resetCount]
      simp [makita.write, makita.reset, delayMicroseconds, resetCount_cons]
      omega
    · rw [(ih _ _).2.2.1, readLoop_readCount, writeLoop_readCount]
      simp [makita.write, makita.reset, delayMicroseconds, readCount_cons]
      ring

/-- On an idle bus with a pack present, the BroadcastReadRom retry loop runs all
its iterations and fails. -/
theorem cmdAndRead33_retry_idle (bus : Bus) (hp : ∀ h, (makita.reset bus h).1 = true)
    (hd : ∀ h, (makita.read bus h).1 = 0xFF) (cmd : Buf) (cmd_len rsp_len left : Nat)
    (rsp : Buf) (w : World) :
    (cmdAndRead33.retry bus cmd cmd_len rsp_len left rsp w).ok = false ∧
    resetCount (cmdAndRead33.retry bus cmd cmd_len rsp_len left rsp w).world
      = resetCount w + left ∧
    readCount (cmdAndRead33.retry bus cmd cmd_len rsp_len left rsp w).world
      = readCount w + left * (rsp_len + 8) ∧
    ∀ i, i < rsp_len + 8 →
      (cmdAndRead33.retry bus cmd cmd_len rsp_len left rsp w).rsp i = 0xFF := by
  induction left generalizing rsp w with
  | zero =>
    simp only [cmdAndRead33.retry, memset, Nat.add_zero, Nat.zero_mul, true_and]
    intro i hi
    rw [if_pos hi]
  | succ left ih =>
    rw [cmdAndRead33.retry, if_neg (by simp [hp])]
    simp only []
    have hall : ∀ j, 0 ≤ j → j < 0 + (rsp_len + 8) →
        (readLoop bus rsp_len 8 (readLoop bus 8 0 rsp
          (makita.write 0x33 (delayMicroseconds 310 (makita.reset bus w).2))).1
          (writeLoop cmd cmd_len 0 (readLoop bus 8 0 rsp
            (makita.write 0x33 (delayMicroseconds 310 (makita.reset bus w).2))).2)).1 j
          = 0xFF := by
      intro j _ h2
      by_cases hj : j < 8
      · rw [readLoop_buf_outside _ _ _ _ _ _ (Or.inl hj)]
        exact readLoop_buf_idle bus hd _ _ _ _ j (by omega) (by omega)
      · exact readLoop_buf_idle bus hd _ _ _ _ j (by omega) (by omega)
    rw [validLoop_idle _ _ _ hall]
    simp only [Bool.false_eq_true, if_false]
    refine ⟨(ih _ _).1, ?_, ?_, (ih _ _).2.2.2⟩
    · rw [(ih _ _).2.1, readLoop_resetCount, writeLoop_resetCount, readLoop_resetCount]
      simp [makita.write, makita.reset, delayMicroseconds, resetCount_cons]
      omega
    · rw [(ih _ _).2.2.1, readLoop_readCount, writeLoop_readCount, readLoop_readCount]
      simp [makita.write, makita.reset, delayMicroseconds, readCount_cons]
      ring

/-- Every byte `readLoop` stores is a `uint8_t`. -/
theorem readLoop_buf_byte (bus : Bus) (n i : Nat) (rsp : Buf) (w : World) (j : Nat)
    (h1 : i ≤ j) (h2 : j < i + n) : (readLoop bus n i rsp w).1 j < 256 := by
  induction n generalizing i rsp w with
  | zero => omega
  | succ n ih =>
    rw [readLoop]
    by_cases hij : j = i
    · rw [readLoop_buf_outside _ _ _ _ _ _ (by omega)]
      simp only [Buf.set, hij, if_true, makita.read]
      exact Nat.mod_lt _ (by norm_num)
    · exact ih _ _ _ (by omega) (by omega)

/-- A successful BroadcastReadRom transaction leaves bytes over the requested length. -/
theorem cmdAndRead33_retry_bytes (bus : Bus) (cmd : Buf) (cmd_len rsp_len left : Nat)
    (rsp : Buf) (w : World) :
    (cmdAndRead33.retry bus cmd cmd_len rsp_len left rsp w).ok = true →
    ∀ j, j < rsp_len + 8 → (cmdAndRead33.retry bus cmd cmd_len rsp_len left rsp w).rsp j < 256 := by
  induction left generalizing rsp w with
  | zero => intro h; simp [cmdAndRead33.retry] at h
  | succ left ih =>
    rw [cmdAndRead33.retry]
    split
    · exact ih _ _
    · simp only []
      split
      · intro _ j hj
        dsimp only
        by_cases h8 : j < 8
        · rw [readLoop_buf_outside _ _ _ _ _ _ (Or.inl h8)]
          exact readLoop_buf_byte _ _ _ _ _ _ (by omega) (by omega)
        · exact readLoop_buf_byte _ _ _ _ _ _ (by omega) (by omega)
      · exact ih _ _

/-- A successful SkipRom transaction leaves bytes over the requested length. -/
theorem cmdAndReadCC_retry_bytes (bus : Bus) (cmd : Buf) (cmd_len rsp_len left : Nat)
    (rsp : Buf) (w : World) :
    (cmdAndReadCC.retry bus cmd cmd_len rsp_len left rsp w).ok = true →
    ∀ j, j < rsp_len → (cmdAndReadCC.retry bus cmd cmd_len rsp_len left rsp w).rsp j < 256 := by
  induction left generalizing rsp w with
  | zero => intro h; simp [cmdAndReadCC.retry] at h
  | succ left ih =>
    rw [cmdAndReadCC.retry]
    split
    · exact ih _ _
    · simp only []
      split
      · intro _ j hj
        dsimp only
        exact readLoop_buf_byte _ _ _ _ _ _ (by omega) (by omega)
      · exact ih _ _

/-- A failed SkipRom transaction leaves 0xFF over the requested length. -/
theorem cmdAndReadCC_retry_failed (bus : Bus) (cmd : Buf) (cmd_len rsp_len left : Nat)
    (rsp : Buf) (w : World) :
    (cmdAndReadCC.retry bus cmd cmd_len rsp_len left rsp w).ok = false →
    ∀ j, j < rsp_len → (cmdAndReadCC.retry bus cmd cmd_len rsp_len left rsp w).rsp j = 0xFF := by
  induction left generalizing rsp w with
  | zero => intro _ j hj; simp [cmdAndReadCC.retry, memset, hj]
  | succ left ih =>
    rw [cmdAndReadCC.retry]
    split
    · exact ih _ _
    · simp only []
      split
      · intro h; simp at h
      · exact ih _ _

/-- Swapping the nibbles of a byte gives a byte. -/
theorem SWAP_NIBBLES_lt : ∀ x, x < 256 → SWAP_NIBBLES x < 256 := by decide

/-- The bitwise little-endian combination is `lo + 256 * hi`. -/
theorem le16_eq (lo hi : Nat) (h : lo < 256) : le16 lo hi = lo + 256 * hi := by
  have h8 : lo < 2 ^ 8 := by simpa using h
  unfold le16
  rw [Nat.lor_comm, Nat.shiftLeft_eq, Nat.mul_comm hi, ← Nat.mul_add_lt_is_or h8 hi]
  norm_num
  ring

/-- `readBatteryInfo` returns the flag of its transaction. -/
theorem readBatteryInfo_ok_iff (bus : Bus) (rsp : Buf) (bd : BatteryData) (w : World) :
    (readBatteryInfo bus rsp bd w).ok
      = (cmdAndRead33 bus (Buf.ofList [0xAA, 0x00]) 2 rsp 40 (delay 400 (setEnable true w))).ok := by
  unfold readBatteryInfo
  dsimp only
  split
  · next h => simp [h]
  · next h => simp [h]

/-- For a byte, `%02X` prints its two upper-case hexadecimal digits. -/
theorem fmt02X_eq : ∀ n, n < 256 → fmt02X n = [hexDigitUpper (n / 16), hexDigitUpper (n % 16)] := by
  decide

/-- The characters `%02X` prints for a byte are non-NUL single bytes. -/
theorem fmt02X_chars : ∀ n, n < 256 → ∀ c ∈ fmt02X n, c.toNat ≠ 0 ∧ c.toNat < 256 := by
  decide

/-- For a byte, `%02d` prints at most three characters, all non-NUL single bytes. -/
theorem fmt02d_chars : ∀ n, n < 256 →
    (fmt02d n).length ≤ 3 ∧ ∀ c ∈ fmt02d n, c.toNat ≠ 0 ∧ c.toNat < 256 := by
  decide

/-- Below 100, `%02d` prints the tens digit and the units digit. -/
theorem fmt02d_two_digits : ∀ n, n < 100 → fmt02d n = [decDigit (n / 10), decDigit (n % 10)] := by
  decide

/-- Copying text from index `i` on leaves the bytes below `i` alone. -/
theorem snprintf_put_below (dst : Buf) (room i : Nat) (text : List Char) (j : Nat) (hj : j < i) :
    snprintf.put dst room i text j = dst j := by
  induction room generalizing dst i text with
  | zero => simp [snprintf.put, Buf.set]; omega
  | succ room ih =>
    cases text with
    | nil => simp [snprintf.put, Buf.set]; omega
    | cons c cs =>
      rw [snprintf.put, ih _ _ _ (by omega)]
      simp [Buf.set]; omega

/-- Text that fits is read back unchanged. -/
theorem cstr_scan_put (text : List Char) (dst : Buf) (room i fuel : Nat)
    (hr : text.length ≤ room) (hf : text.length < fuel)
    (hc : ∀ c ∈ text, c.toNat ≠ 0 ∧ c.toNat < 256) :
    cstr.scan (snprintf.put dst room i text) fuel i = text := by
  induction text generalizing dst room i fuel with
  | nil =>
    cases fuel with
    | zero => simp at hf
    | succ fuel => cases room <;> simp [snprintf.put, cstr.scan, Buf.set]
  | cons c cs ih =>
    cases fuel with
    | zero => simp at hf
    | succ fuel =>
      cases room with
      | zero => simp at hr
      | succ room =>
        have hcc := hc c (List.mem_cons_self c cs)
        have hv : snprintf.put (dst.set i (c.toNat % 256)) room (i + 1) cs i = c.toNat := by
          rw [snprintf_put_below _ _ _ _ _ (by omega)]
          simp [Buf.set, Nat.mod_eq_of_lt hcc.2]
        rw [snprintf.put, cstr.scan, hv, if_neg hcc.1, Char.ofNat_toNat,
          ih _ _ _ _ (by simpa using hr) (by simpa using hf)
            (fun d hd => hc d (List.mem_cons_of_mem c hd))]

/-- A text shorter than the array is stored whole by `snprintf` and read back
unchanged. -/
theorem cstr_snprintf (dst : Buf) (size : Nat) (text : List Char) (h : text.length < size)
    (hc : ∀ c ∈ text, c.toNat ≠ 0 ∧ c.toNat < 256) :
    cstr (snprintf dst size text) size = text := by
  unfold cstr snprintf
  rw [if_neg (by omega)]
  exact cstr_scan_put text dst (size - 1) 0 size (by omega) h hc

/-- Both bytes of the legacy probe come from `makita.read`. -/
theorem f0513Probe_bytes (bus : Bus) (opcode : Nat) (w : World) :
    (f0513Probe bus opcode w).1 < 256 ∧ (f0513Probe bus opcode w).2.1 < 256 := by
  simp only [f0513Probe, makita.read]
  exact ⟨Nat.mod_lt _ (by norm_num), Nat.mod_lt _ (by norm_num)⟩

/-- On 16-bit values the conversion to `int16_t` is the signed reading. -/
theorem toInt16_eq (v : Nat) (h : v < 65536) : toInt16 v = signed16 v := by
  unfold toInt16 signed16
  rw [Nat.mod_eq_of_lt h]

/-- The primary cell loop leaves the cells below its start index alone. -/
theorem primaryCells_below (rsp : Buf) (n i : Nat) (s : CellScan) (j : Nat) (hj : j < i) :
    (primaryCells rsp n i s).cellVoltage j = s.cellVoltage j := by
  induction n generalizing i s with
  | zero => rfl
  | succ n ih =>
    rw [primaryCells, ih _ _ (by omega)]
    simp only [setCell]
    rw [if_neg (by omega)]

/-- The primary cell loop stores in each cell of its range the value decoded
from the response. -/
theorem primaryCells_cellVoltage (rsp : Buf) (n i : Nat) (s : CellScan) (j : Nat)
    (h1 : i ≤ j) (h2 : j < i + n) :
    (primaryCells rsp n i s).cellVoltage j
      = fdiv (intToFloat (le16 (rsp (2 + j * 2)) (rsp (3 + j * 2)))) 1000 := by
  induction n generalizing i s with
  | zero => omega
  | succ n ih =>
    rw [primaryCells]
    by_cases hij : j = i
    · rw [primaryCells_below _ _ _ _ _ (by omega)]
      simp [setCell, hij]
    · exact ih _ _ (by omega) (by omega)

/-- The update `if (v > maxV) maxV = v` computes a maximum. -/
theorem ite_gt_eq_max (v m : ℚ) : (if v > m then v else m) = max m v := by
  rw [max_def]
  split_ifs with h1 h2 h2
  · rfl
  · exact absurd (le_of_lt h1) h2
  · exact le_antisymm h2 (not_lt.mp h1)
  · rfl

/-- The update `if (v < minV) minV = v` computes a minimum. -/
theorem ite_lt_eq_min (v m : ℚ) : (if v < m then v else m) = min m v := by
  rw [min_def]
  split_ifs with h1 h2 h2
  · exact le_antisymm (le_of_lt h1) h2
  · rfl
  · rfl
  · exact absurd (not_lt.mp h1) h2

/-- What the legacy sum/max/min loop computes over five cells, starting from
`sum = 0, maxV = 0, minV = 5`: the running `float` sum, the maximum and the
minimum. -/
theorem legacySum_five (cv : Nat → ℚ) :
    (legacySum cv 5 0 ⟨0, 0, 5⟩).sum
      = fadd (fadd (fadd (fadd (fadd 0 (cv 0)) (cv 1)) (cv 2)) (cv 3)) (cv 4) ∧
    (legacySum cv 5 0 ⟨0, 0, 5⟩).maxV = max 0 (maxCell cv) ∧
    (legacySum cv 5 0 ⟨0, 0, 5⟩).minV = min 5 (minCell cv) := by
  simp only [legacySum, ite_gt_eq_max, ite_lt_eq_min, maxCell, minCell, zero_add, max_assoc,
    min_assoc, and_self]

/-- What the primary cell loop computes for `maxV` and `minV` over the five
cells it stores, starting from `maxV = 0, minV = 5`. -/
theorem primaryCells_five (rsp : Buf) (cv : Nat → ℚ) :
    (primaryCells rsp 5 0 ⟨cv, 0, 5⟩).maxV
      = max 0 (maxCell (primaryCells rsp 5 0 ⟨cv, 0, 5⟩).cellVoltage) ∧
    (primaryCells rsp 5 0 ⟨cv, 0, 5⟩).minV
      = min 5 (minCell (primaryCells rsp 5 0 ⟨cv, 0, 5⟩).cellVoltage) := by
  unfold maxCell minCell
  rw [primaryCells_cellVoltage rsp 5 0 _ 0 (by norm_num) (by norm_num),
    primaryCells_cellVoltage rsp 5 0 _ 1 (by norm_num) (by norm_num),
    primaryCells_cellVoltage rsp 5 0 _ 2 (by norm_num) (by norm_num),
    primaryCells_cellVoltage rsp 5 0 _ 3 (by norm_num) (by norm_num),
    primaryCells_cellVoltage rsp 5 0 _ 4 (by norm_num) (by norm_num)]
  simp only [primaryCells, ite_gt_eq_max, ite_lt_eq_min, max_assoc, min_assoc, and_self]

/-- A filter that drops byte reads and microsecond delays sees nothing of `readLoop`. -/
theorem readLoop_filter (p : Event → Bool) (hr : ∀ b, p (Event.read b) = false)
    (hd : ∀ u, p (Event.delayMicroseconds u) = false) (bus : Bus) (n i : Nat) (rsp : Buf)
    (w : World) : (readLoop bus n i rsp w).2.filter p = w.filter p := by
  induction n generalizing i rsp w with
  | zero => rfl
  | succ n ih => simp [readLoop, ih, makita.read, delayMicroseconds, List.filter_cons, hr, hd]

/-- A filter that drops byte writes and microsecond delays sees nothing of `writeLoop`. -/
theorem writeLoop_filter (p : Event → Bool) (hw : ∀ b, p (Event.write b) = false)
    (hd : ∀ u, p (Event.delayMicroseconds u) = false) (cmd : Buf) (n i : Nat) (w : World) :
    (writeLoop cmd n i w).filter p = w.filter p := by
  induction n generalizing i w with
  | zero => rfl
  | succ n ih => simp [writeLoop, ih, makita.write, delayMicroseconds, List.filter_cons, hw, hd]

/-- The loop `readLoop` adds two events for each byte. -/
theorem readLoop_length (bus : Bus) (n i : Nat) (rsp : Buf) (w : World) :
    (readLoop bus n i rsp w).2.length = w.length + 2 * n := by
  induction n generalizing i rsp w with
  | zero => rfl
  | succ n ih =>
    simp [readLoop, ih, makita.read, delayMicroseconds]
    omega

/-- The loop `writeLoop` adds two events for each byte. -/
theorem writeLoop_length (cmd : Buf) (n i : Nat) (w : World) :
    (writeLoop cmd n i w).length = w.length + 2 * n := by
  induction n generalizing i w with
  | zero => rfl
  | succ n ih =>
    simp [writeLoop, ih, makita.write, delayMicroseconds]
    omega

/-- The loop `readLoop` only adds to the trace. -/
theorem readLoop_suffix (bus : Bus) (n i : Nat) (rsp : Buf) (w : World) :
    w <:+ (readLoop bus n i rsp w).2 := by
  induction n generalizing i rsp w with
  | zero => exact List.suffix_refl w
  | succ n ih =>
    rw [readLoop]
    exact List.IsSuffix.trans
      (List.IsSuffix.trans (List.suffix_cons _ _) (List.suffix_cons _ _)) (ih _ _ _)

/-- The loop `writeLoop` only adds to the trace. -/
theorem writeLoop_suffix (cmd : Buf) (n i : Nat) (w : World) : w <:+ writeLoop cmd n i w := by
  induction n generalizing i w with
  | zero => exact List.suffix_refl w
  | succ n ih =>
    rw [writeLoop]
    exact List.IsSuffix.trans
      (List.IsSuffix.trans (List.suffix_cons _ _) (List.suffix_cons _ _)) (ih _ _)

/-- A power cycle only adds to the trace. -/
theorem triggerPower_suffix (w : World) : w <:+ triggerPower w :=
  ⟨[Event.delay 500, Event.enable true, Event.delay 200, Event.enable false], rfl⟩

/-- A reset only adds to the trace. -/
theorem makita_reset_suffix (bus : Bus) (w : World) : w <:+ (makita.reset bus w).2 :=
  List.suffix_cons _ _

/-- A BroadcastReadRom transaction only adds to the trace. -/
theorem cmdAndRead33_retry_suffix (bus : Bus) (cmd : Buf) (cmd_len rsp_len left : Nat)
    (rsp : Buf) (w : World) : w <:+ (cmdAndRead33.retry bus cmd cmd_len rsp_len left rsp w).world := by
  induction left generalizing rsp w with
  | zero => exact List.suffix_refl w
  | succ left ih =>
    rw [cmdAndRead33.retry]
    have h1 : w <:+ (readLoop bus rsp_len 8 (readLoop bus 8 0 rsp
          (makita.write 0x33 (delayMicroseconds 310 (makita.reset bus w).2))).1
          (writeLoop cmd cmd_len 0 (readLoop bus 8 0 rsp
            (makita.write 0x33 (delayMicroseconds 310 (makita.reset bus w).2))).2)).2 :=
      List.IsSuffix.trans (List.IsSuffix.trans (List.IsSuffix.trans
        (List.IsSuffix.trans (makita_reset_suffix bus w)
          (List.IsSuffix.trans (List.suffix_cons _ _) (List.suffix_cons _ _)))
        (readLoop_suffix _ _ _ _ _)) (writeLoop_suffix _ _ _ _)) (readLoop_suffix _ _ _ _ _)
    split
    · exact List.IsSuffix.trans
        (List.IsSuffix.trans (makita_reset_suffix bus w) (triggerPower_suffix _)) (ih _ _)
    · dsimp only
      split
      · exact h1
      · exact List.IsSuffix.trans h1 (ih _ _)

/-- A SkipRom transaction only adds to the trace. -/
theorem cmdAndReadCC_retry_suffix (bus : Bus) (cmd : Buf) (cmd_len rsp_len left : Nat)
    (rsp : Buf) (w : World) : w <:+ (cmdAndReadCC.retry bus cmd cmd_len rsp_len left rsp w).world := by
  induction left generalizing rsp w with
  | zero => exact List.suffix_refl w
  | succ left ih =>
    rw [cmdAndReadCC.retry]
    have h1 : w <:+ (readLoop bus rsp_len 0 rsp (writeLoop cmd cmd_len 0
          (makita.write 0xCC (delayMicroseconds 310 (makita.reset bus w).2)))).2 :=
      List.IsSuffix.trans (List.IsSuffix.trans
        (List.IsSuffix.trans (makita_reset_suffix bus w)
          (List.IsSuffix.trans (List.suffix_cons _ _) (List.suffix_cons _ _)))
        (writeLoop_suffix _ _ _ _)) (readLoop_suffix _ _ _ _ _)
    split
    · exact List.IsSuffix.trans
        (List.IsSuffix.trans (makita_reset_suffix bus w) (triggerPower_suffix _)) (ih _ _)
    · dsimp only
      split
      · exact h1
      · exact List.IsSuffix.trans h1 (ih _ _)

/-- The legacy probe only adds to the trace. -/
theorem f0513Probe_suffix (bus : Bus) (opcode : Nat) (w : World) :
    w <:+ (f0513Probe bus opcode w).2.2 :=
  ⟨[Event.read (f0513Probe bus opcode w).2.1, Event.delayMicroseconds 90,
    Event.read (f0513Probe bus opcode w).1, Event.delayMicroseconds 90, Event.write opcode,
    Event.delayMicroseconds 400,
    Event.reset (bus.presence (Event.delay 400 :: Event.write 0x99 ::
      Event.delayMicroseconds 90 :: Event.write 0xCC :: Event.delayMicroseconds 400 ::
      Event.reset (bus.presence w) :: w)),
    Event.delay 400, Event.write 0x99, Event.delayMicroseconds 90, Event.write 0xCC,
    Event.delayMicroseconds 400, Event.reset (bus.presence w)], rfl⟩

/-- The legacy cell loop only adds to the trace. -/
theorem legacyCells_suffix (bus : Bus) (n i : Nat) (rsp : Buf) (cv : Nat → ℚ) (w : World) :
    w <:+ (legacyCells bus n i rsp cv w).world := by
  induction n generalizing i rsp cv w with
  | zero => exact List.suffix_refl w
  | succ n ih =>
    rw [legacyCells]
    split
    · exact List.IsSuffix.trans (cmdAndReadCC_retry_suffix _ _ _ _ _ _ _) (ih _ _ _ _)
    · exact cmdAndReadCC_retry_suffix _ _ _ _ _ _ _

/-- The trace of `readBatteryInfo` ends with `setEnable(false)` after a part
that starts with `setEnable(true); delay(400)`. -/
theorem readBatteryInfo_world (bus : Bus) (rsp : Buf) (bd : BatteryData) (w : World) :
    ∃ x, (readBatteryInfo bus rsp bd w).world = setEnable false x ∧
      delay 400 (setEnable true w) <:+ x := by
  unfold readBatteryInfo
  dsimp only
  split
  · exact ⟨_, rfl, cmdAndRead33_retry_suffix _ _ _ _ _ _ _⟩
  · exact ⟨_, rfl, cmdAndRead33_retry_suffix _ _ _ _ _ _ _⟩

/-- The trace of `readBatteryModel` ends with `setEnable(false)` after a part
that starts with `setEnable(true); delay(400)`. -/
theorem readBatteryModel_world (bus : Bus) (rsp : Buf) (bd : BatteryData) (w : World) :
    ∃ x, (readBatteryModel bus rsp bd w).world = setEnable false x ∧
      delay 400 (setEnable true w) <:+ x := by
  unfold readBatteryModel
  dsimp only
  split
  · exact ⟨_, rfl, cmdAndReadCC_retry_suffix _ _ _ _ _ _ _⟩
  · split
    · exact ⟨_, rfl, List.IsSuffix.trans (cmdAndReadCC_retry_suffix _ _ _ _ _ _ _)
        (f0513Probe_suffix _ _ _)⟩
    · exact ⟨_, rfl, List.IsSuffix.trans (cmdAndReadCC_retry_suffix _ _ _ _ _ _ _)
        (f0513Probe_suffix _ _ _)⟩

/-- The trace of `readBatteryVoltages` ends with `setEnable(false)` after a part
that starts with `setEnable(true); delay(400)`. -/
theorem readBatteryVoltages_world (bus : Bus) (rsp : Buf) (bd : BatteryData) (w : World) :
    ∃ x, (readBatteryVoltages bus rsp bd w).world = setEnable false x ∧
      delay 400 (setEnable true w) <:+ x := by
  unfold readBatteryVoltages
  dsimp only
  split
  · exact ⟨_, rfl, cmdAndReadCC_retry_suffix _ _ _ _ _ _ _⟩
  · split
    · split
      · exact ⟨_, rfl, List.IsSuffix.trans (List.IsSuffix.trans
          (cmdAndReadCC_retry_suffix _ _ _ _ _ _ _) (legacyCells_suffix _ _ _ _ _ _))
          (cmdAndReadCC_retry_suffix _ _ _ _ _ _ _)⟩
      · exact ⟨_, rfl, List.IsSuffix.trans (List.IsSuffix.trans
          (cmdAndReadCC_retry_suffix _ _ _ _ _ _ _) (legacyCells_suffix _ _ _ _ _ _))
          (cmdAndReadCC_retry_suffix _ _ _ _ _ _ _)⟩
    · exact ⟨_, rfl, List.IsSuffix.trans (cmdAndReadCC_retry_suffix _ _ _ _ _ _ _)
        (legacyCells_suffix _ _ _ _ _ _)⟩

/-- A trace of that shape starts with the enable line driven high and ends with it driven low. -/
theorem enable_frame (w x y : World) (hy : y = setEnable false x)
    (h : delay 400 (setEnable true w) <:+ x) :
    (∃ mid, y = Event.enable false :: (mid ++ Event.delay 400 :: Event.enable true :: w)) ∧
    enableLine y = some false := by
  obtain ⟨mid, hm⟩ := h
  subst hy
  exact ⟨⟨mid, by rw [← hm]; rfl⟩, rfl⟩

/-- The loop `readLoop` performs no reset. -/
theorem readLoop_failedResetCount (bus : Bus) (n i : Nat) (rsp : Buf) (w : World) :
    failedResetCount (readLoop bus n i rsp w).2 = failedResetCount w := by
  unfold failedResetCount
  rw [readLoop_filter _ (fun _ => rfl) (fun _ => rfl)]

/-- The loop `writeLoop` performs no reset. -/
theorem writeLoop_failedResetCount (cmd : Buf) (n i : Nat) (w : World) :
    failedResetCount (writeLoop cmd n i w) = failedResetCount w := by
  unfold failedResetCount
  rw [writeLoop_filter _ (fun _ => rfl) (fun _ => rfl)]

/-- The loop `readLoop` leaves the enable line alone. -/
theorem readLoop_enableCount (high : Bool) (bus : Bus) (n i : Nat) (rsp : Buf) (w : World) :
    enableCount high (readLoop bus n i rsp w).2 = enableCount high w := by
  unfold enableCount
  rw [readLoop_filter _ (fun _ => rfl) (fun _ => rfl)]

/-- The loop `writeLoop` leaves the enable line alone. -/
theorem writeLoop_enableCount (high : Bool) (cmd : Buf) (n i : Nat) (w : World) :
    enableCount high (writeLoop cmd n i w) = enableCount high w := by
  unfold enableCount
  rw [writeLoop_filter _ (fun _ => rfl) (fun _ => rfl)]

/-- What a failed reset followed by `triggerPower` adds to the trace. -/
theorem counts_reset_fail (w : World) :
    resetCount (triggerPower (Event.reset false :: w)) = resetCount w + 1 ∧
    failedResetCount (triggerPower (Event.reset false :: w)) = failedResetCount w + 1 ∧
    enableCount false (triggerPower (Event.reset false :: w)) = enableCount false w + 1 ∧
    enableCount true (triggerPower (Event.reset false :: w)) = enableCount true w + 1 ∧
    writeCount (triggerPower (Event.reset false :: w)) = writeCount w ∧
    (triggerPower (Event.reset false :: w)).length = w.length + 5 := by
  simp [triggerPower, delay, setEnable, resetCount, failedResetCount, enableCount, writeCount]

/-- What a successful reset followed by the opcode adds to the trace. -/
theorem counts_opcode (b : Nat) (w : World) :
    resetCount (makita.write b (delayMicroseconds 310 (Event.reset true :: w)))
      = resetCount w + 1 ∧
    failedResetCount (makita.write b (delayMicroseconds 310 (Event.reset true :: w)))
      = failedResetCount w ∧
    enableCount false (makita.write b (delayMicroseconds 310 (Event.reset true :: w)))
      = enableCount false w ∧
    enableCount true (makita.write b (delayMicroseconds 310 (Event.reset true :: w)))
      = enableCount true w ∧
    (makita.write b (delayMicroseconds 310 (Event.reset true :: w))).length = w.length + 3 := by
  simp [makita.write, delayMicroseconds, resetCount, failedResetCount, enableCount]

/-- The budget of the BroadcastReadRom retry loop with `left` iterations to go:
`r` resets of which `f` failed, one power cycle for each failed reset, no byte
written when all failed, and a bounded trace. -/
theorem cmdAndRead33_retry_budget (bus : Bus) (cmd : Buf) (cmd_len rsp_len left : Nat)
    (rsp : Buf) (w : World) :
    ∃ r f, f ≤ r ∧ r ≤ left ∧
      resetCount (cmdAndRead33.retry bus cmd cmd_len rsp_len left rsp w).world
        = resetCount w + r ∧
      failedResetCount (cmdAndRead33.retry bus cmd cmd_len rsp_len left rsp w).world
        = failedResetCount w + f ∧
      enableCount false (cmdAndRead33.retry bus cmd cmd_len rsp_len left rsp w).world
        = enableCount false w + f ∧
      enableCount true (cmdAndRead33.retry bus cmd cmd_len rsp_len left rsp w).world
        = enableCount true w + f ∧
      (f = left → (cmdAndRead33.retry bus cmd cmd_len rsp_len left rsp w).ok = false ∧
        writeCount (cmdAndRead33.retry bus cmd cmd_len rsp_len left rsp w).world
          = writeCount w) ∧
      (cmdAndRead33.retry bus cmd cmd_len rsp_len left rsp w).world.length
        ≤ w.length + left * (19 + 2 * cmd_len + 2 * rsp_len) := by
  induction left generalizing rsp w with
  | zero => exact ⟨0, 0, le_refl 0, le_refl 0, rfl, rfl, rfl, rfl, fun _ => ⟨rfl, rfl⟩, by simp [cmdAndRead33.retry]⟩
  | succ left ih =>
    rw [cmdAndRead33.retry]
    by_cases hp : bus.presence w = false
    · rw [if_pos (by simpa [makita.reset] using hp)]
      simp only [makita.reset, hp]
      obtain ⟨r, f, h1, h2, h3, h4, h5, h6, h7, h8⟩ :=
        ih rsp (triggerPower (Event.reset false :: w))
      obtain ⟨c1, c2, c3, c4, c5, c6⟩ := counts_reset_fail w
      refine ⟨r + 1, f + 1, by omega, by omega, by omega, by omega, by omega, by omega, ?_, ?_⟩
      · intro hf
        have := h7 (by omega)
        exact ⟨this.1, by rw [this.2, c5]⟩
      · rw [c6] at h8
        have : left * (19 + 2 * cmd_len + 2 * rsp_len) + (19 + 2 * cmd_len + 2 * rsp_len)
            = (left + 1) * (19 + 2 * cmd_len + 2 * rsp_len) := by ring
        omega
    · have hp1 : bus.presence w = true := by simpa using hp
      rw [if_neg (by simp [makita.reset, hp1])]
      simp only [makita.reset, hp1]
      obtain ⟨c1, c2, c3, c4, c6⟩ := counts_opcode 0x33 w
      have hlen : (readLoop bus rsp_len 8 (readLoop bus 8 0 rsp
          (makita.write 0x33 (delayMicroseconds 310 (Event.reset true :: w)))).1
          (writeLoop cmd cmd_len 0 (readLoop bus 8 0 rsp
            (makita.write 0x33 (delayMicroseconds 310 (Event.reset true :: w)))).2)).2.length
          = w.length + (19 + 2 * cmd_len + 2 * rsp_len) := by
        rw [readLoop_length, writeLoop_length, readLoop_length, c6]
        omega
      have hmul : left * (19 + 2 * cmd_len + 2 * rsp_len) + (19 + 2 * cmd_len + 2 * rsp_len)
          = (left + 1) * (19 + 2 * cmd_len + 2 * rsp_len) := by ring
      split
      · refine ⟨1, 0, by omega, by omega, ?_, ?_, ?_, ?_, fun h => by omega, ?_⟩
        · dsimp only
          rw [readLoop_resetCount, writeLoop_resetCount, readLoop_resetCount, c1]
        · dsimp only
          rw [readLoop_failedResetCount, writeLoop_failedResetCount, readLoop_failedResetCount, c2]
          rfl
        · dsimp only
          rw [readLoop_enableCount, writeLoop_enableCount, readLoop_enableCount, c3]
          rfl
        · dsimp only
          rw [readLoop_enableCount, writeLoop_enableCount, readLoop_enableCount, c4]
          rfl
        · dsimp only
          rw [hlen]
          have : 0 ≤ left * (19 + 2 * cmd_len + 2 * rsp_len) := Nat.zero_le _
          omega
      · obtain ⟨r, f, h1, h2, h3, h4, h5, h6, h7, h8⟩ := ih
          (readLoop bus rsp_len 8 (readLoop bus 8 0 rsp
            (makita.write 0x33 (delayMicroseconds 310 (Event.reset true :: w)))).1
            (writeLoop cmd cmd_len 0 (readLoop bus 8 0 rsp
              (makita.write 0x33 (delayMicroseconds 310 (Event.reset true :: w)))).2)).1
          (readLoop bus rsp_len 8 (readLoop bus 8 0 rsp
            (makita.write 0x33 (delayMicroseconds 310 (Event.reset true :: w)))).1
            (writeLoop cmd cmd_len 0 (readLoop bus 8 0 rsp
              (makita.write 0x33 (delayMicroseconds 310 (Event.reset true :: w)))).2)).2
        rw [readLoop_resetCount, writeLoop_resetCount, readLoop_resetCount, c1] at h3
        rw [readLoop_failedResetCount, writeLoop_failedResetCount, readLoop_failedResetCount,
          c2] at h4
        rw [readLoop_enableCount, writeLoop_enableCount, readLoop_enableCount, c3] at h5
        rw [readLoop_enableCount, writeLoop_enableCount, readLoop_enableCount, c4] at h6
        rw [hlen] at h8
        exact ⟨r + 1, f, by omega, by omega, by omega, h4, h5, h6, fun h => by omega,
          by omega⟩

/-- The budget of the SkipRom retry loop with `left` iterations to go: `r`
resets of which `f` failed, one power cycle for each failed reset, no byte
written when all failed, and a bounded trace. -/
theorem cmdAndReadCC_retry_budget (bus : Bus) (cmd : Buf) (cmd_len rsp_len left : Nat)
    (rsp : Buf) (w : World) :
    ∃ r f, f ≤ r ∧ r ≤ left ∧
      resetCount (cmdAndReadCC.retry bus cmd cmd_len rsp_len left rsp w).world
        = resetCount w + r ∧
      failedResetCount (cmdAndReadCC.retry bus cmd cmd_len rsp_len left rsp w).world
        = failedResetCount w + f ∧
      enableCount false (cmdAndReadCC.retry bus cmd cmd_len rsp_len left rsp w).world
        = enableCount false w + f ∧
      enableCount true (cmdAndReadCC.retry bus cmd cmd_len rsp_len left rsp w).world
        = enableCount true w + f ∧
      (f = left → (cmdAndReadCC.retry bus cmd cmd_len rsp_len left rsp w).ok = false ∧
        writeCount (cmdAndReadCC.retry bus cmd cmd_len rsp_len left rsp w).world
          = writeCount w) ∧
      (cmdAndReadCC.retry bus cmd cmd_len rsp_len left rsp w).world.length
        ≤ w.length + left * (5 + 2 * cmd_len + 2 * rsp_len) := by
  induction left generalizing rsp w with
  | zero => exact ⟨0, 0, le_refl 0, le_refl 0, rfl, rfl, rfl, rfl, fun _ => ⟨rfl, rfl⟩, by simp [cmdAndReadCC.retry]⟩
  | succ left ih =>
    rw [cmdAndReadCC.retry]
    by_cases hp : bus.presence w = false
    · rw [if_pos (by simpa [makita.reset] using hp)]
      simp only [makita.reset, hp]
      obtain ⟨r, f, h1, h2, h3, h4, h5, h6, h7, h8⟩ :=
        ih rsp (triggerPower (Event.reset false :: w))
      obtain ⟨c1, c2, c3, c4, c5, c6⟩ := counts_reset_fail w
      refine ⟨r + 1, f + 1, by omega, by omega, by omega, by omega, by omega, by omega, ?_, ?_⟩
      · intro hf
        have := h7 (by omega)
        exact ⟨this.1, by rw [this.2, c5]⟩
      · rw [c6] at h8
        have : left * (5 + 2 * cmd_len + 2 * rsp_len) + (5 + 2 * cmd_len + 2 * rsp_len)
            = (left + 1) * (5 + 2 * cmd_len + 2 * rsp_len) := by ring
        omega
    · have hp1 : bus.presence w = true := by simpa using hp
      rw [if_neg (by simp [makita.reset, hp1])]
      simp only [makita.reset, hp1]
      obtain ⟨c1, c2, c3, c4, c6⟩ := counts_opcode 0xCC w
      have hlen : (readLoop bus rsp_len 0 rsp (writeLoop cmd cmd_len 0
          (makita.write 0xCC (delayMicroseconds 310 (Event.reset true :: w))))).2.length
          ≤ w.length + (5 + 2 * cmd_len + 2 * rsp_len) := by
        rw [readLoop_length, writeLoop_length, c6]
        omega
      have hmul : left * (5 + 2 * cmd_len + 2 * rsp_len) + (5 + 2 * cmd_len + 2 * rsp_len)
          = (left + 1) * (5 + 2 * cmd_len + 2 * rsp_len) := by ring
      split
      · refine ⟨1, 0, by omega, by omega, ?_, ?_, ?_, ?_, fun h => by omega, ?_⟩
        · dsimp only
          rw [readLoop_resetCount, writeLoop_resetCount, c1]
        · dsimp only
          rw [readLoop_failedResetCount, writeLoop_failedResetCount, c2]
          rfl
        · dsimp only
          rw [readLoop_enableCount, writeLoop_enableCount, c3]
          rfl
        · dsimp only
          rw [readLoop_enableCount, writeLoop_enableCount, c4]
          rfl
        · dsimp only
          have := hlen
          have : 0 ≤ left * (5 + 2 * cmd_len + 2 * rsp_len) := Nat.zero_le _
          omega
      · obtain ⟨r, f, h1, h2, h3, h4, h5, h6, h7, h8⟩ := ih
          (readLoop bus rsp_len 0 rsp (writeLoop cmd cmd_len 0
            (makita.write 0xCC (delayMicroseconds 310 (Event.reset true :: w))))).1
          (readLoop bus rsp_len 0 rsp (writeLoop cmd cmd_len 0
            (makita.write 0xCC (delayMicroseconds 310 (Event.reset true :: w))))).2
        rw [readLoop_resetCount, writeLoop_resetCount, c1] at h3
        rw [readLoop_failedResetCount, writeLoop_failedResetCount, c2] at h4
        rw [readLoop_enableCount, writeLoop_enableCount, c3] at h5
        rw [readLoop_enableCount, writeLoop_enableCount, c4] at h6
        have := hlen
        exact ⟨r + 1, f, by omega, by omega, by omega, h4, h5, h6, fun h => by omega,
          by omega⟩

/-- The validity scan finds a byte that is not 0xFF when the range holds one. -/
theorem validLoop_true (rsp : Buf) (n i : Nat)
    (h : ∃ j, i ≤ j ∧ j < i + n ∧ rsp j ≠ 0xFF) : validLoop rsp n i = true := by
  by_contra hv
  obtain ⟨j, h1, h2, h3⟩ := h
  exact h3 (validLoop_false rsp n i (by simpa using hv) j h1 h2)

/-- The bytes `readLoop` reads are the bytes it stores, index by index. -/
theorem readLoop_readsOf (bus : Bus) (n i : Nat) (rsp : Buf) (w : World) :
    readsOf (readLoop bus n i rsp w).2
      = readsOf w ++ (List.range n).map (fun k => (readLoop bus n i rsp w).1 (i + k)) := by
  induction n generalizing i rsp w with
  | zero => simp [readLoop]
  | succ n ih =>
    rw [readLoop, ih, List.range_succ_eq_map, List.map_cons, List.map_map]
    rw [readLoop_buf_outside _ _ _ _ _ (i + 0) (Or.inl (by omega))]
    have hidx : ∀ k, i + 1 + k = i + (k + 1) := fun k => by omega
    simp only [makita.read, delayMicroseconds, readsOf, Buf.set, Nat.add_zero, if_true,
      List.append_assoc, List.singleton_append, Function.comp, Nat.succ_eq_add_one, hidx]
    rfl

/-- The loop `writeLoop` reads nothing. -/
theorem writeLoop_readsOf (cmd : Buf) (n i : Nat) (w : World) :
    readsOf (writeLoop cmd n i w) = readsOf w := by
  induction n generalizing i w with
  | zero => rfl
  | succ n ih => rw [writeLoop, ih]; rfl

/-- Without a pack the BroadcastReadRom retry loop fails. -/
theorem cmdAndRead33_retry_absent (bus : Bus) (hp : ∀ h, (makita.reset bus h).1 = false)
    (cmd : Buf) (cmd_len rsp_len left : Nat) (rsp : Buf) (w : World) :
    (cmdAndRead33.retry bus cmd cmd_len rsp_len left rsp w).ok = false := by
  induction left generalizing rsp w with
  | zero => rfl
  | succ left ih => rw [cmdAndRead33.retry, if_pos (hp w)]; exact ih _ _

/-- Without a pack the SkipRom retry loop fails. -/
theorem cmdAndReadCC_retry_absent (bus : Bus) (hp : ∀ h, (makita.reset bus h).1 = false)
    (cmd : Buf) (cmd_len rsp_len left : Nat) (rsp : Buf) (w : World) :
    (cmdAndReadCC.retry bus cmd cmd_len rsp_len left rsp w).ok = false := by
  induction left generalizing rsp w with
  | zero => rfl
  | succ left ih => rw [cmdAndReadCC.retry, if_pos (hp w)]; exact ih _ _

/-- Without a pack `readBatteryInfo` returns false and leaves the snapshot as it was. -/
theorem readBatteryInfo_absent (bus : Bus) (hp : ∀ h, (makita.reset bus h).1 = false)
    (rsp : Buf) (bd : BatteryData) (w : World) :
    (readBatteryInfo bus rsp bd w).ok = false ∧ (readBatteryInfo bus rsp bd w).bd = bd := by
  have h : (cmdAndRead33 bus (Buf.ofList [0xAA, 0x00]) 2 rsp 40
      (delay 400 (setEnable true w))).ok = false := cmdAndRead33_retry_absent bus hp _ _ _ _ _ _
  unfold readBatteryInfo
  dsimp only
  rw [if_neg (by simp [h])]
  exact ⟨rfl, rfl⟩

/-- Without a pack `readBatteryModel` returns false and leaves the snapshot as it was. -/
theorem readBatteryModel_absent (bus : Bus) (hp : ∀ h, (makita.reset bus h).1 = false)
    (hd : ∀ h, (makita.read bus h).1 = 0xFF) (rsp : Buf) (bd : BatteryData) (w : World) :
    (readBatteryModel bus rsp bd w).ok = false ∧ (readBatteryModel bus rsp bd w).bd = bd := by
  have h : (cmdAndReadCC bus (Buf.ofList [0xDC, 0x0C]) 2 rsp 10
      (delay 400 (setEnable true w))).ok = false := cmdAndReadCC_retry_absent bus hp _ _ _ _ _ _
  have hb : ∀ x, (f0513Probe bus 0x31 x).2.1 = 0xFF := fun x => hd _
  unfold readBatteryModel
  dsimp only
  rw [if_neg (by simp [h]), if_neg (by simp [hb])]
  exact ⟨h, rfl⟩

/-- Without a pack `readBatteryVoltages` returns false and leaves the snapshot as it was. -/
theorem readBatteryVoltages_absent (bus : Bus) (hp : ∀ h, (makita.reset bus h).1 = false)
    (rsp : Buf) (bd : BatteryData) (w : World) :
    (readBatteryVoltages bus rsp bd w).ok = false ∧
    (readBatteryVoltages bus rsp bd w).bd = bd := by
  have h : (cmdAndReadCC bus (Buf.ofList [0xD7, 0x00, 0x00, 0xFF]) 4 rsp 29
      (delay 400 (setEnable true w))).ok = false := cmdAndReadCC_retry_absent bus hp _ _ _ _ _ _
  have hc : ∀ r cv x, (legacyCells bus 5 0 r cv x).ok = false ∧
      (legacyCells bus 5 0 r cv x).cellVoltage = cv := by
    intro r cv x
    have h1 : (cmdAndReadCC bus (Buf.ofList [0x31 + 0]) 1 r 2 x).ok = false :=
      cmdAndReadCC_retry_absent bus hp _ _ _ _ _ _
    rw [legacyCells, if_neg (by simp [h1])]
    exact ⟨rfl, rfl⟩
  unfold readBatteryVoltages
  dsimp only
  rw [if_neg (by simp [h]), if_neg (by simp [(hc _ _ _).1]), (hc _ _ _).2]
  exact ⟨h, rfl⟩

/-- A payload that has arrived in full is read, and the bytes after it stay in the queue. -/
theorem readData_append (payload : List Nat) (i : Nat) (data : Buf) (rest : List Nat) :
    ∃ d, processSerialCommand.readData payload.length i data (payload ++ rest) = some (d, rest) := by
  induction payload generalizing i data with
  | nil => exact ⟨data, rfl⟩
  | cons b payload ih =>
    obtain ⟨d, hd⟩ := ih (i + 1) (data.set i (b % 256))
    exact ⟨d, by rw [List.length_cons, List.cons_append, processSerialCommand.readData, hd]⟩

/-- The loop of `sendUSB` writes the bytes of the buffer in index order. -/
theorem sendUSB_loop_eq (rsp : Buf) (n i : Nat) :
    sendUSB.loop rsp n i = (List.range n).map (fun k => rsp (i + k)) := by
  induction n generalizing i with
  | zero => rfl
  | succ n ih =>
    have hidx : ∀ k, i + 1 + k = i + (k + 1) := fun k => by omega
    rw [sendUSB.loop, ih, List.range_succ_eq_map, List.map_cons, List.map_map]
    simp only [Nat.add_zero, hidx]
    rfl

/-- The loop of `sendUSB` writes one byte for each iteration. -/
theorem sendUSB_loop_length (rsp : Buf) (n i : Nat) : (sendUSB.loop rsp n i).length = n := by
  induction n generalizing i with
  | zero => rfl
  | succ n ih => rw [sendUSB.loop, List.length_cons, ih]

/-- A recognised command leaves the local `rsp_len` as received. -/
theorem dispatch_rsp_len (bus : Bus) (cmd : Nat) (data : Buf) (len : Nat) (rsp : Buf)
    (rsp_len : Nat) (w : World)
    (hrec : cmd = 0x01 ∨ cmd = 0x31 ∨ cmd = 0x32 ∨ cmd = 0x33 ∨ cmd = 0xCC) :
    (processSerialCommand.dispatch bus cmd data len rsp rsp_len w).2.1 = rsp_len := by
  unfold processSerialCommand.dispatch
  rcases hrec with h | h | h | h | h <;> subst h <;> simp

/-- A BroadcastReadRom transaction leaves the memory from index `rsp_len + 8` on alone. -/
theorem cmdAndRead33_retry_buf_outside (bus : Bus) (cmd : Buf) (cmd_len rsp_len left : Nat)
    (rsp : Buf) (w : World) (j : Nat) (hj : rsp_len + 8 ≤ j) :
    (cmdAndRead33.retry bus cmd cmd_len rsp_len left rsp w).rsp j = rsp j := by
  induction left generalizing rsp w with
  | zero =>
    simp only [cmdAndRead33.retry, memset]
    rw [if_neg (by omega)]
  | succ left ih =>
    rw [cmdAndRead33.retry]
    have h2 : (readLoop bus rsp_len 8 (readLoop bus 8 0 rsp
        (makita.write 0x33 (delayMicroseconds 310 (makita.reset bus w).2))).1
        (writeLoop cmd cmd_len 0 (readLoop bus 8 0 rsp
          (makita.write 0x33 (delayMicroseconds 310 (makita.reset bus w).2))).2)).1 j = rsp j := by
      rw [readLoop_buf_outside _ _ _ _ _ _ (Or.inr (by omega)),
        readLoop_buf_outside _ _ _ _ _ _ (Or.inr (by omega))]
    split
    · exact ih _ _
    · dsimp only
      split
      · exact h2
      · rw [ih, h2]

/-- A SkipRom transaction leaves the memory from index `rsp_len` on alone. -/
theorem cmdAndReadCC_retry_buf_outside (bus : Bus) (cmd : Buf) (cmd_len rsp_len left : Nat)
    (rsp : Buf) (w : World) (j : Nat) (hj : rsp_len ≤ j) :
    (cmdAndReadCC.retry bus cmd cmd_len rsp_len left rsp w).rsp j = rsp j := by
  induction left generalizing rsp w with
  | zero =>
    simp only [cmdAndReadCC.retry, memset]
    rw [if_neg (by omega)]
  | succ left ih =>
    rw [cmdAndReadCC.retry]
    have h2 : (readLoop bus rsp_len 0 rsp (writeLoop cmd cmd_len 0
        (makita.write 0xCC (delayMicroseconds 310 (makita.reset bus w).2)))).1 j = rsp j := by
      rw [readLoop_buf_outside _ _ _ _ _ _ (Or.inr (by omega))]
    split
    · exact ih _ _
    · dsimp only
      split
      · exact h2
      · rw [ih, h2]

/-- The `switch` leaves the memory behind the 255-byte array alone when the
passthrough lengths fit. -/
theorem dispatch_buf_outside (bus : Bus) (cmd : Nat) (data : Buf) (len : Nat) (rsp : Buf)
    (rsp_len : Nat) (w : World)
    (h33 : cmd = 0x33 → rsp_len ≤ 245) (hCC : cmd = 0xCC → rsp_len ≤ 253) (j : Nat)
    (hj : 255 ≤ j) :
    (processSerialCommand.dispatch bus cmd data len rsp rsp_len w).1 j = rsp j := by
  unfold processSerialCommand.dispatch
  split
  · simp only [Buf.set]
    rw [if_neg (by omega), if_neg (by omega), if_neg (by omega), if_neg (by omega),
      if_neg (by omega)]
  · split
    · simp only [Buf.set]
      rw [if_neg (by omega), if_neg (by omega)]
    · split
      · next h =>
        have := h33 h
        simp only [Buf.unshift]
        rw [if_neg (by omega)]
        show (cmdAndRead33.retry bus data len rsp_len 3 (Buf.shift rsp 2) w).rsp (j - 2) = rsp j
        rw [cmdAndRead33_retry_buf_outside _ _ _ _ _ _ _ _ (by omega)]
        simp only [Buf.shift]
        congr 1
        omega
      · split
        · next h =>
          have := hCC h
          simp only [Buf.unshift]
          rw [if_neg (by omega)]
          show (cmdAndReadCC.retry bus data len rsp_len 3 (Buf.shift rsp 2) w).rsp (j - 2) = rsp j
          rw [cmdAndReadCC_retry_buf_outside _ _ _ _ _ _ _ _ (by omega)]
          simp only [Buf.shift]
          congr 1
          omega
        · rfl

/-! ## Claims -/

/-- C1. On a bus where every reset detects presence and every byte read is
0xFF, both transactions (BroadcastReadRom `cmdAndRead33` and SkipRom
`cmdAndReadCC`) return false after exactly three resets and three full rounds of
reads, and the output buffer holds 0xFF over the whole requested length
(`rsp_len + 8` bytes, respectively `rsp_len` bytes). -/
theorem cmdAndRead_idle_fails_after_three (bus : Bus)
    (hp : ∀ h, (makita.reset bus h).1 = true) (hd : ∀ h, (makita.read bus h).1 = 0xFF)
    (cmd : Buf) (cmd_len : Nat) (rsp : Buf) (rsp_len : Nat) (w : World) :
    ((cmdAndRead33 bus cmd cmd_len rsp rsp_len w).ok = false ∧
      resetCount (cmdAndRead33 bus cmd cmd_len rsp rsp_len w).world = resetCount w + 3 ∧
      readCount (cmdAndRead33 bus cmd cmd_len rsp rsp_len w).world
        = readCount w + 3 * (rsp_len + 8) ∧
      ∀ i, i < rsp_len + 8 → (cmdAndRead33 bus cmd cmd_len rsp rsp_len w).rsp i = 0xFF) ∧
    ((cmdAndReadCC bus cmd cmd_len rsp rsp_len w).ok = false ∧
      resetCount (cmdAndReadCC bus cmd cmd_len rsp rsp_len w).world = resetCount w + 3 ∧
      readCount (cmdAndReadCC bus cmd cmd_len rsp rsp_len w).world
        = readCount w + 3 * rsp_len ∧
      ∀ i, i < rsp_len → (cmdAndReadCC bus cmd cmd_len rsp rsp_len w).rsp i = 0xFF) :=
  ⟨cmdAndRead33_retry_idle bus hp hd cmd cmd_len rsp_len 3 rsp w,
   cmdAndReadCC_retry_idle bus hp hd cmd cmd_len rsp_len 3 rsp w⟩

/-- C1, at a concrete input: the identity query and the model query on a pack
that is present and never drives the bus. -/
theorem cmdAndRead_idle_fails_after_three_witness :
    (∀ h, (makita.reset busIdle h).1 = true) ∧
    (∀ h, (makita.read busIdle h).1 = 0xFF) ∧
    (cmdAndRead33 busIdle (Buf.ofList [0xAA, 0x00]) 2 zeroBuf 40 []).ok = false ∧
    resetCount (cmdAndRead33 busIdle (Buf.ofList [0xAA, 0x00]) 2 zeroBuf 40 []).world = 3 ∧
    (cmdAndReadCC busIdle (Buf.ofList [0xDC, 0x0C]) 2 zeroBuf 10 []).ok = false ∧
    resetCount (cmdAndReadCC busIdle (Buf.ofList [0xDC, 0x0C]) 2 zeroBuf 10 []).world = 3 :=
  ⟨fun _ => rfl, fun _ => rfl,
   (cmdAndRead_idle_fails_after_three busIdle (fun _ => rfl) (fun _ => rfl)
     (Buf.ofList [0xAA, 0x00]) 2 zeroBuf 40 []).1.1,
   (cmdAndRead_idle_fails_after_three busIdle (fun _ => rfl) (fun _ => rfl)
     (Buf.ofList [0xAA, 0x00]) 2 zeroBuf 40 []).1.2.1,
   (cmdAndRead_idle_fails_after_three busIdle (fun _ => rfl) (fun _ => rfl)
     (Buf.ofList [0xDC, 0x0C]) 2 zeroBuf 10 []).2.1,
   (cmdAndRead_idle_fails_after_three busIdle (fun _ => rfl) (fun _ => rfl)
     (Buf.ofList [0xDC, 0x0C]) 2 zeroBuf 10 []).2.2.1⟩

/-- C2, the code at a failing input.  When all five cells read 6000 mV, on the
primary path and on the legacy path alike, `readBatteryVoltages` returns true
and stores 6 V in every cell, yet `cellDiff` is 1 V where the largest minus the
smallest reading is 0: `minV` starts at 5 and no reading is below it. -/
theorem readBatteryVoltages_cellDiff_six_volt_cells :
    ((readBatteryVoltages busSixVoltPrimary zeroBuf BatteryData.zero []).ok = true ∧
     (∀ i, i < 5 →
       (readBatteryVoltages busSixVoltPrimary zeroBuf BatteryData.zero []).bd.cellVoltage i = 6) ∧
     (readBatteryVoltages busSixVoltPrimary zeroBuf BatteryData.zero []).bd.cellDiff = 1 ∧
     maxCell (readBatteryVoltages busSixVoltPrimary zeroBuf BatteryData.zero []).bd.cellVoltage
       - minCell (readBatteryVoltages busSixVoltPrimary zeroBuf BatteryData.zero []).bd.cellVoltage
       = 0) ∧
    ((readBatteryVoltages busSixVoltLegacy zeroBuf BatteryData.zero []).ok = true ∧
     (∀ i, i < 5 →
       (readBatteryVoltages busSixVoltLegacy zeroBuf BatteryData.zero []).bd.cellVoltage i = 6) ∧
     (readBatteryVoltages busSixVoltLegacy zeroBuf BatteryData.zero []).bd.cellDiff = 1 ∧
     maxCell (readBatteryVoltages busSixVoltLegacy zeroBuf BatteryData.zero []).bd.cellVoltage
       - minCell (readBatteryVoltages busSixVoltLegacy zeroBuf BatteryData.zero []).bd.cellVoltage
       = 0) := by
  decide!

/-- C3, the code at a failing input.  The pack answers 0xFF, 0x00 and then
stays idle.  In `readBatteryModel` the primary response starts with 0xFF and
the fallback probe reads 0xFF, yet the operation returns true; in
`readBatteryVoltages` the primary response starts with 0xFF and the legacy cell
loop fails, yet the operation returns true.  In both, `success` still holds the
flag of the primary transaction. -/
theorem read_returns_true_after_failed_fallback :
    ((cmdAndReadCC busFirstIdle (Buf.ofList [0xDC, 0x0C]) 2 zeroBuf 10
        (delay 400 (setEnable true []))).rsp 0 = 0xFF ∧
     (f0513Probe busFirstIdle 0x31
        (cmdAndReadCC busFirstIdle (Buf.ofList [0xDC, 0x0C]) 2 zeroBuf 10
          (delay 400 (setEnable true []))).world).1 = 0xFF ∧
     (readBatteryModel busFirstIdle zeroBuf BatteryData.zero []).ok = true) ∧
    ((cmdAndReadCC busFirstIdle (Buf.ofList [0xD7, 0x00, 0x00, 0xFF]) 4 zeroBuf 29
        (delay 400 (setEnable true []))).rsp 0 = 0xFF ∧
     (legacyCells busFirstIdle 5 0
        (cmdAndReadCC busFirstIdle (Buf.ofList [0xD7, 0x00, 0x00, 0xFF]) 4 zeroBuf 29
          (delay 400 (setEnable true []))).rsp BatteryData.zero.cellVoltage
        (cmdAndReadCC busFirstIdle (Buf.ofList [0xD7, 0x00, 0x00, 0xFF]) 4 zeroBuf 29
          (delay 400 (setEnable true []))).world).ok = false ∧
     (readBatteryVoltages busFirstIdle zeroBuf BatteryData.zero []).ok = true) := by
  decide

/-- C4, the code at a failing input.  The primary query stays idle, the first
legacy cell query answers 3700 mV and the second one fails:
`readBatteryVoltages` returns false, and `cellVoltage[0]`, which was 0 before
the call, is the `float` 3.7 (15518925 / 2^22) after it. -/
theorem readBatteryVoltages_false_changes_first_cell :
    (readBatteryVoltages busOneCell zeroBuf BatteryData.zero []).ok = false ∧
    BatteryData.zero.cellVoltage 0 = 0 ∧
    (readBatteryVoltages busOneCell zeroBuf BatteryData.zero []).bd.cellVoltage 0
      = 15518925 / 4194304 := by
  decide!

/-- C5, the code at a failing input.  A first read on a primary-generation pack
succeeds and leaves `tempMosfet` at the `float` 30.1 (15781069 / 2^19).  The
second read finds a legacy-generation pack: the primary query fails, the five
cell queries answer 3700 mV each and the temperature query fails.  The second
read returns true with `packVoltage` 18.5, the `float` sum of the five cells,
and `tempMosfet` still the `float` 30.1 instead of 0. -/
theorem readBatteryVoltages_legacy_keeps_tempMosfet :
    (readBatteryVoltages busSwapped zeroBuf BatteryData.zero []).ok = true ∧
    (readBatteryVoltages busSwapped zeroBuf BatteryData.zero []).bd.tempMosfet = 15781069 / 524288 ∧
    (cmdAndReadCC busSwapped (Buf.ofList [0xD7, 0x00, 0x00, 0xFF]) 4 zeroBuf 29
      (delay 400 (setEnable true
        (readBatteryVoltages busSwapped zeroBuf BatteryData.zero []).world))).ok = false ∧
    (readBatteryVoltages busSwapped zeroBuf
      (readBatteryVoltages busSwapped zeroBuf BatteryData.zero []).bd
      (readBatteryVoltages busSwapped zeroBuf BatteryData.zero []).world).ok = true ∧
    (∀ i, i < 5 → (readBatteryVoltages busSwapped zeroBuf
      (readBatteryVoltages busSwapped zeroBuf BatteryData.zero []).bd
      (readBatteryVoltages busSwapped zeroBuf BatteryData.zero []).world).bd.cellVoltage i
        = 15518925 / 4194304) ∧
    (readBatteryVoltages busSwapped zeroBuf
      (readBatteryVoltages busSwapped zeroBuf BatteryData.zero []).bd
      (readBatteryVoltages busSwapped zeroBuf BatteryData.zero []).world).bd.packVoltage
        = 37 / 2 ∧
    (readBatteryVoltages busSwapped zeroBuf
      (readBatteryVoltages busSwapped zeroBuf BatteryData.zero []).bd
      (readBatteryVoltages busSwapped zeroBuf BatteryData.zero []).world).bd.tempMosfet
        = 15781069 / 524288 := by
  decide!

/-- C6, as stated, fails at a concrete input.  With 0x12 at message offset 28
and 0x34 at message offset 29 a successful identity/status read decodes
`chargeCount` 0x143 = 323, not 0x321 = 801. -/
theorem readBatteryInfo_chargeCount_offset_order :
    (readBatteryInfo busChargeCount zeroBuf BatteryData.zero []).ok = true ∧
    Buf.shift (cmdAndRead33 busChargeCount (Buf.ofList [0xAA, 0x00]) 2 zeroBuf 40
      (delay 400 (setEnable true []))).rsp 8 28 = 0x12 ∧
    Buf.shift (cmdAndRead33 busChargeCount (Buf.ofList [0xAA, 0x00]) 2 zeroBuf 40
      (delay 400 (setEnable true []))).rsp 8 29 = 0x34 ∧
    (readBatteryInfo busChargeCount zeroBuf BatteryData.zero []).bd.chargeCount = 323 ∧
    (readBatteryInfo busChargeCount zeroBuf BatteryData.zero []).bd.chargeCount ≠ 801 := by
  decide

/-- C6, amended.  After every successful identity/status read, `chargeCount` is
`(swap(msg[29]) | (swap(msg[28]) << 8)) & 0x0FFF`: the byte at message offset 29
is the low byte and the byte at offset 28 the high byte.  It is at most 4095.
With low byte 0x12 (offset 29) and high byte 0x34 (offset 28) it is 801; with
0x12 at offset 28 and 0x34 at offset 29 it is 323. -/
theorem readBatteryInfo_chargeCount (bus : Bus) (rsp : Buf) (bd : BatteryData) (w : World)
    (p : TxResult)
    (hp : p = cmdAndRead33 bus (Buf.ofList [0xAA, 0x00]) 2 rsp 40 (delay 400 (setEnable true w)))
    (hok : (readBatteryInfo bus rsp bd w).ok = true) :
    (readBatteryInfo bus rsp bd w).bd.chargeCount
      = (SWAP_NIBBLES (Buf.shift p.rsp 8 29) ||| (SWAP_NIBBLES (Buf.shift p.rsp 8 28) <<< 8))
          &&& 0x0FFF ∧
    (readBatteryInfo bus rsp bd w).bd.chargeCount ≤ 4095 ∧
    (Buf.shift p.rsp 8 29 = 0x12 → Buf.shift p.rsp 8 28 = 0x34 →
      (readBatteryInfo bus rsp bd w).bd.chargeCount = 801) ∧
    (Buf.shift p.rsp 8 28 = 0x12 → Buf.shift p.rsp 8 29 = 0x34 →
      (readBatteryInfo bus rsp bd w).bd.chargeCount = 323) := by
  subst hp
  rw [readBatteryInfo_ok_iff] at hok
  have hb := cmdAndRead33_retry_bytes bus (Buf.ofList [0xAA, 0x00]) 2 40 3 rsp
    (delay 400 (setEnable true w)) hok
  have hlo : SWAP_NIBBLES ((cmdAndRead33 bus (Buf.ofList [0xAA, 0x00]) 2 rsp 40
      (delay 400 (setEnable true w))).rsp (8 + 29)) < 256 :=
    SWAP_NIBBLES_lt _ (hb (8 + 29) (by norm_num))
  have hhi : SWAP_NIBBLES ((cmdAndRead33 bus (Buf.ofList [0xAA, 0x00]) 2 rsp 40
      (delay 400 (setEnable true w))).rsp (8 + 28)) < 256 :=
    SWAP_NIBBLES_lt _ (hb (8 + 28) (by norm_num))
  have hcc : (readBatteryInfo bus rsp bd w).bd.chargeCount
      = (SWAP_NIBBLES (Buf.shift (cmdAndRead33 bus (Buf.ofList [0xAA, 0x00]) 2 rsp 40
            (delay 400 (setEnable true w))).rsp 8 29) |||
          (SWAP_NIBBLES (Buf.shift (cmdAndRead33 bus (Buf.ofList [0xAA, 0x00]) 2 rsp 40
            (delay 400 (setEnable true w))).rsp 8 28) <<< 8)) &&& 0x0FFF := by
    unfold readBatteryInfo
    dsimp only
    rw [if_pos hok]
    dsimp only [Buf.shift, toUInt16]
    rw [Nat.mod_eq_of_lt (a := SWAP_NIBBLES _) (by omega),
      Nat.mod_eq_of_lt (a := SWAP_NIBBLES _) (by omega), Nat.mod_eq_of_lt]
    have h1 : SWAP_NIBBLES ((cmdAndRead33 bus (Buf.ofList [0xAA, 0x00]) 2 rsp 40
      (delay 400 (setEnable true w))).rsp (8 + 29)) < 2 ^ 16 := by omega
    have h2 : SWAP_NIBBLES ((cmdAndRead33 bus (Buf.ofList [0xAA, 0x00]) 2 rsp 40
      (delay 400 (setEnable true w))).rsp (8 + 28)) <<< 8 < 2 ^ 16 := by
      rw [Nat.shiftLeft_eq]; omega
    exact Nat.or_lt_two_pow h1 h2
  refine ⟨hcc, ?_, ?_, ?_⟩
  · rw [hcc]; exact Nat.and_le_right
  · intro h1 h2; rw [hcc, h1, h2]; decide
  · intro h1 h2; rw [hcc, h1, h2]; decide

/-- C6, amended, at a concrete input: 0x34 at message offset 28 and 0x12 at
message offset 29 decode to 801. -/
theorem readBatteryInfo_chargeCount_witness :
    (readBatteryInfo busChargeSwapped zeroBuf BatteryData.zero []).ok = true ∧
    (readBatteryInfo busChargeSwapped zeroBuf BatteryData.zero []).bd.chargeCount = 801 :=
  ⟨by decide,
   (readBatteryInfo_chargeCount busChargeSwapped zeroBuf BatteryData.zero [] _ rfl
      (by decide)).2.2.1 (by decide) (by decide)⟩

/-- C7. In `readBatteryModel`, when the primary response `p` starts with 0xFF and
the fallback probe reads `b1` then `b0`, both different from 0xFF, the operation
returns true and the model text is "BL" followed by the two upper-case
hexadecimal digits of `b1` and then of `b0`: six characters.  For 0x05, 0x13 it
is "BL0513". -/
theorem readBatteryModel_fallback_model (bus : Bus) (rsp : Buf) (bd : BatteryData) (w : World)
    (p : TxResult)
    (hp : p = cmdAndReadCC bus (Buf.ofList [0xDC, 0x0C]) 2 rsp 10 (delay 400 (setEnable true w)))
    (b1 b0 : Nat) (hb1 : b1 = (f0513Probe bus 0x31 p.world).1)
    (hb0 : b0 = (f0513Probe bus 0x31 p.world).2.1)
    (hun : p.rsp 0 = 0xFF) (h1 : b1 ≠ 0xFF) (h0 : b0 ≠ 0xFF) :
    (readBatteryModel bus rsp bd w).ok = true ∧
    cstr (readBatteryModel bus rsp bd w).bd.model 16
      = ['B', 'L', hexDigitUpper (b1 / 16), hexDigitUpper (b1 % 16),
          hexDigitUpper (b0 / 16), hexDigitUpper (b0 % 16)] ∧
    (b1 = 0x05 → b0 = 0x13 →
      cstr (readBatteryModel bus rsp bd w).bd.model 16 = ['B', 'L', '0', '5', '1', '3']) := by
  have hlt1 : b1 < 256 := hb1 ▸ (f0513Probe_bytes bus 0x31 p.world).1
  have hlt0 : b0 < 256 := hb0 ▸ (f0513Probe_bytes bus 0x31 p.world).2
  have htext : ['B', 'L'] ++ fmt02X b1 ++ fmt02X b0
      = ['B', 'L', hexDigitUpper (b1 / 16), hexDigitUpper (b1 % 16),
          hexDigitUpper (b0 / 16), hexDigitUpper (b0 % 16)] := by
    rw [fmt02X_eq b1 hlt1, fmt02X_eq b0 hlt0]; rfl
  have hchars : ∀ c ∈ ['B', 'L'] ++ fmt02X b1 ++ fmt02X b0, c.toNat ≠ 0 ∧ c.toNat < 256 := by
    intro c hc
    rw [List.mem_append, List.mem_append] at hc
    rcases hc with (hc | hc) | hc
    · rw [List.mem_cons, List.mem_singleton] at hc
      rcases hc with rfl | rfl <;> decide
    · exact fmt02X_chars b1 hlt1 c hc
    · exact fmt02X_chars b0 hlt0 c hc
  have hrun : (readBatteryModel bus rsp bd w).ok = true ∧
      (readBatteryModel bus rsp bd w).bd.model
        = snprintf bd.model 16 (['B', 'L'] ++ fmt02X b1 ++ fmt02X b0) := by
    subst hp hb1 hb0
    unfold readBatteryModel
    dsimp only
    rw [if_neg (fun h => h.2 hun), if_pos ⟨h0, h1⟩]
    exact ⟨rfl, rfl⟩
  have hstr : cstr (readBatteryModel bus rsp bd w).bd.model 16
      = ['B', 'L', hexDigitUpper (b1 / 16), hexDigitUpper (b1 % 16),
          hexDigitUpper (b0 / 16), hexDigitUpper (b0 % 16)] := by
    rw [hrun.2, cstr_snprintf _ _ _ (by rw [htext]; simp) hchars, htext]
  refine ⟨hrun.1, hstr, ?_⟩
  intro e1 e0
  rw [hstr, e1, e0]
  decide

/-- C7 at a concrete input: the primary model query stays idle and the probe
reads 0x05, 0x13. -/
theorem readBatteryModel_fallback_model_witness :
    (readBatteryModel busModelLegacy zeroBuf BatteryData.zero []).ok = true ∧
    cstr (readBatteryModel busModelLegacy zeroBuf BatteryData.zero []).bd.model 16
      = ['B', 'L', '0', '5', '1', '3'] :=
  ⟨(readBatteryModel_fallback_model busModelLegacy zeroBuf BatteryData.zero [] _ rfl
      0x05 0x13 (by decide) (by decide) (by decide) (by decide) (by decide)).1,
   (readBatteryModel_fallback_model busModelLegacy zeroBuf BatteryData.zero [] _ rfl
      0x05 0x13 (by decide) (by decide) (by decide) (by decide) (by decide)).2.2 rfl rfl⟩

/-- C8, as stated, fails at a concrete input.  On a pack answering with
`primaryFrame` (18500 mV, cells 3700, 3700, 3705, 3690, 3705 mV, temperatures
2550 and 3010) the primary transaction succeeds with a first byte other than
0xFF, yet `cellVoltage[0]` is not 3700/1000, `cellDiff` is not 0.015 and
`tempMosfet` is not 30.1: the fields are `float` values. -/
theorem readBatteryVoltages_primary_decode_inexact :
    (cmdAndReadCC busPrimary (Buf.ofList [0xD7, 0x00, 0x00, 0xFF]) 4 zeroBuf 29
      (delay 400 (setEnable true []))).ok = true ∧
    (cmdAndReadCC busPrimary (Buf.ofList [0xD7, 0x00, 0x00, 0xFF]) 4 zeroBuf 29
      (delay 400 (setEnable true []))).rsp 0 ≠ 0xFF ∧
    (readBatteryVoltages busPrimary zeroBuf BatteryData.zero []).ok = true ∧
    (readBatteryVoltages busPrimary zeroBuf BatteryData.zero []).bd.cellVoltage 0
      ≠ 3700 / 1000 ∧
    (readBatteryVoltages busPrimary zeroBuf BatteryData.zero []).bd.cellDiff ≠ 3 / 200 ∧
    (readBatteryVoltages busPrimary zeroBuf BatteryData.zero []).bd.tempMosfet ≠ 301 / 10 := by
  decide!

/-- C8, amended.  When the primary voltage transaction `p` succeeds and its first
byte is not 0xFF, `readBatteryVoltages` returns true with `packVoltage` the
`float` nearest to the little-endian value of bytes 0-1 over 1000,
`cellVoltage[i]` the `float` nearest to that of bytes 2+2i, 3+2i over 1000,
`tempCell` the `float` nearest to the signed little-endian value of bytes 14-15
over 100 and `tempMosfet` the `float` nearest to that of bytes 16-17 over 100.
When the response is `primaryFrame` (18500 mV, cells 3700, 3700, 3705, 3690,
3705 mV, temperatures 2550 and 3010) the snapshot shows `packVoltage` 18.5 and
`tempCell` 25.5 exactly, `cellDiff` 31457 / 2^21 (0.01499987) and `tempMosfet`
15781069 / 2^19 (30.1000004), each within one millionth of 0.015 and 30.1. -/
theorem readBatteryVoltages_primary_decode (bus : Bus) (rsp : Buf) (bd : BatteryData) (w : World)
    (p : TxResult)
    (hp : p = cmdAndReadCC bus (Buf.ofList [0xD7, 0x00, 0x00, 0xFF]) 4 rsp 29
      (delay 400 (setEnable true w)))
    (hok : p.ok = true) (hans : p.rsp 0 ≠ 0xFF) :
    (readBatteryVoltages bus rsp bd w).ok = true ∧
    (readBatteryVoltages bus rsp bd w).bd.packVoltage
      = roundFloat (((p.rsp 0 + 256 * p.rsp 1 : Nat) : ℚ) / 1000) ∧
    (∀ i, i < 5 → (readBatteryVoltages bus rsp bd w).bd.cellVoltage i
      = roundFloat (((p.rsp (2 + 2 * i) + 256 * p.rsp (3 + 2 * i) : Nat) : ℚ) / 1000)) ∧
    (readBatteryVoltages bus rsp bd w).bd.tempCell
      = roundFloat ((signed16 (p.rsp 14 + 256 * p.rsp 15) : ℚ) / 100) ∧
    (readBatteryVoltages bus rsp bd w).bd.tempMosfet
      = roundFloat ((signed16 (p.rsp 16 + 256 * p.rsp 17) : ℚ) / 100) ∧
    ((∀ i, i < 18 → p.rsp i = primaryFrame.getD i 0) →
      (readBatteryVoltages bus rsp bd w).bd.packVoltage = 37 / 2 ∧
      (readBatteryVoltages bus rsp bd w).bd.cellDiff = 31457 / 2097152 ∧
      (readBatteryVoltages bus rsp bd w).bd.tempCell = 51 / 2 ∧
      (readBatteryVoltages bus rsp bd w).bd.tempMosfet = 15781069 / 524288 ∧
      |(readBatteryVoltages bus rsp bd w).bd.cellDiff - 3 / 200| < 1 / 1000000 ∧
      |(readBatteryVoltages bus rsp bd w).bd.tempMosfet - 301 / 10| < 1 / 1000000) := by
  have hb : ∀ j, j < 29 → p.rsp j < 256 := by
    intro j hj
    have hok2 := hok
    rw [hp] at hok2 ⊢
    exact cmdAndReadCC_retry_bytes bus _ 4 29 3 rsp _ hok2 j hj
  have hrun : readBatteryVoltages bus rsp bd w =
      ⟨p.ok,
       { bd with
         packVoltage := fdiv (intToFloat (le16 (p.rsp 0) (p.rsp 1))) 1000
         cellVoltage := (primaryCells p.rsp 5 0 ⟨bd.cellVoltage, 0, 5⟩).cellVoltage
         cellDiff := fsub (primaryCells p.rsp 5 0 ⟨bd.cellVoltage, 0, 5⟩).maxV
           (primaryCells p.rsp 5 0 ⟨bd.cellVoltage, 0, 5⟩).minV
         tempCell := fdiv (intToFloat (toInt16 (p.rsp 14 ||| (p.rsp 15 <<< 8)))) 100
         tempMosfet := fdiv (intToFloat (toInt16 (p.rsp 16 ||| (p.rsp 17 <<< 8)))) 100 },
       setEnable false p.world⟩ := by
    unfold readBatteryVoltages
    dsimp only
    rw [← hp, if_pos ⟨hok, hans⟩]
  have hle : ∀ a b, a < 29 → b < 29 → le16 (p.rsp a) (p.rsp b) = p.rsp a + 256 * p.rsp b ∧
      p.rsp a + 256 * p.rsp b < 65536 := by
    intro a b ha hb2
    have h1 := hb a ha
    have h2 := hb b hb2
    exact ⟨le16_eq _ _ h1, by omega⟩
  have hpack : (readBatteryVoltages bus rsp bd w).bd.packVoltage
      = roundFloat (((p.rsp 0 + 256 * p.rsp 1 : Nat) : ℚ) / 1000) := by
    rw [hrun]; dsimp only
    rw [(hle 0 1 (by norm_num) (by norm_num)).1,
      intToFloat_natCast _ (hle 0 1 (by norm_num) (by norm_num)).2]
    rfl
  have htc : (readBatteryVoltages bus rsp bd w).bd.tempCell
      = roundFloat ((signed16 (p.rsp 14 + 256 * p.rsp 15) : ℚ) / 100) := by
    rw [hrun]; dsimp only
    rw [show p.rsp 14 ||| (p.rsp 15 <<< 8) = le16 (p.rsp 14) (p.rsp 15) from rfl,
      (hle 14 15 (by norm_num) (by norm_num)).1,
      toInt16_eq _ (hle 14 15 (by norm_num) (by norm_num)).2,
      intToFloat_signed16 _ (hle 14 15 (by norm_num) (by norm_num)).2]
    rfl
  have htm : (readBatteryVoltages bus rsp bd w).bd.tempMosfet
      = roundFloat ((signed16 (p.rsp 16 + 256 * p.rsp 17) : ℚ) / 100) := by
    rw [hrun]; dsimp only
    rw [show p.rsp 16 ||| (p.rsp 17 <<< 8) = le16 (p.rsp 16) (p.rsp 17) from rfl,
      (hle 16 17 (by norm_num) (by norm_num)).1,
      toInt16_eq _ (hle 16 17 (by norm_num) (by norm_num)).2,
      intToFloat_signed16 _ (hle 16 17 (by norm_num) (by norm_num)).2]
    rfl
  have hcell : ∀ i, i < 5 → (readBatteryVoltages bus rsp bd w).bd.cellVoltage i
      = roundFloat (((p.rsp (2 + 2 * i) + 256 * p.rsp (3 + 2 * i) : Nat) : ℚ) / 1000) := by
    intro i hi
    rw [hrun]; dsimp only
    rw [primaryCells_cellVoltage _ _ _ _ _ (Nat.zero_le i) (by omega),
      (hle _ _ (by omega) (by omega)).1,
      intToFloat_natCast _ (hle _ _ (by omega) (by omega)).2, Nat.mul_comm i 2]
    rfl
  have hdiff : (readBatteryVoltages bus rsp bd w).bd.cellDiff
      = fsub (max 0 (maxCell (readBatteryVoltages bus rsp bd w).bd.cellVoltage))
          (min 5 (minCell (readBatteryVoltages bus rsp bd w).bd.cellVoltage)) := by
    rw [hrun]; dsimp only
    rw [(primaryCells_five p.rsp bd.cellVoltage).1, (primaryCells_five p.rsp bd.cellVoltage).2]
  refine ⟨by rw [hrun]; exact hok, hpack, hcell, htc, htm, ?_⟩
  intro hfr
  have e0 := hfr 0 (by norm_num)
  have e1 := hfr 1 (by norm_num)
  have e2 := hfr 2 (by norm_num)
  have e3 := hfr 3 (by norm_num)
  have e4 := hfr 4 (by norm_num)
  have e5 := hfr 5 (by norm_num)
  have e6 := hfr 6 (by norm_num)
  have e7 := hfr 7 (by norm_num)
  have e8 := hfr 8 (by norm_num)
  have e9 := hfr 9 (by norm_num)
  have e10 := hfr 10 (by norm_num)
  have e11 := hfr 11 (by norm_num)
  have e14 := hfr 14 (by norm_num)
  have e15 := hfr 15 (by norm_num)
  have e16 := hfr 16 (by norm_num)
  have e17 := hfr 17 (by norm_num)
  simp only [primaryFrame, List.getD_cons_zero, List.getD_cons_succ]
    at e0 e1 e2 e3 e4 e5 e6 e7 e8 e9 e10 e11 e14 e15 e16 e17
  have c0 : (readBatteryVoltages bus rsp bd w).bd.cellVoltage 0 = 15518925 / 4194304 := by
    rw [hcell 0 (by norm_num)]
    simp only [Nat.mul_zero, Nat.add_zero, e2, e3]
    decide!
  have c1 : (readBatteryVoltages bus rsp bd w).bd.cellVoltage 1 = 15518925 / 4194304 := by
    rw [hcell 1 (by norm_num)]
    simp only [Nat.mul_one, Nat.reduceAdd, e4, e5]
    decide!
  have c2 : (readBatteryVoltages bus rsp bd w).bd.cellVoltage 2 = 1942487 / 524288 := by
    rw [hcell 2 (by norm_num)]
    simp only [Nat.reduceMul, Nat.reduceAdd, e6, e7]
    decide!
  have c3 : (readBatteryVoltages bus rsp bd w).bd.cellVoltage 3 = 7738491 / 2097152 := by
    rw [hcell 3 (by norm_num)]
    simp only [Nat.reduceMul, Nat.reduceAdd, e8, e9]
    decide!
  have c4 : (readBatteryVoltages bus rsp bd w).bd.cellVoltage 4 = 1942487 / 524288 := by
    rw [hcell 4 (by norm_num)]
    simp only [Nat.reduceMul, Nat.reduceAdd, e10, e11]
    decide!
  have hd : (readBatteryVoltages bus rsp bd w).bd.cellDiff = 31457 / 2097152 := by
    rw [hdiff]
    unfold maxCell minCell
    rw [c0, c1, c2, c3, c4]
    decide!
  have hm : (readBatteryVoltages bus rsp bd w).bd.tempMosfet = 15781069 / 524288 := by
    rw [htm, e16, e17]
    decide!
  refine ⟨?_, hd, ?_, hm, ?_, ?_⟩
  · rw [hpack, e0, e1]
    decide!
  · rw [htc, e14, e15]
    decide!
  · rw [hd]
    norm_num [abs_lt]
  · rw [hm]
    norm_num [abs_lt]

/-- C8, amended, at a concrete input: a pack answering with `primaryFrame`. -/
theorem readBatteryVoltages_primary_decode_witness :
    (readBatteryVoltages busPrimary zeroBuf BatteryData.zero []).ok = true ∧
    (readBatteryVoltages busPrimary zeroBuf BatteryData.zero []).bd.packVoltage = 37 / 2 ∧
    (readBatteryVoltages busPrimary zeroBuf BatteryData.zero []).bd.cellDiff
      = 31457 / 2097152 ∧
    (readBatteryVoltages busPrimary zeroBuf BatteryData.zero []).bd.tempCell = 51 / 2 ∧
    (readBatteryVoltages busPrimary zeroBuf BatteryData.zero []).bd.tempMosfet
      = 15781069 / 524288 :=
  ⟨(readBatteryVoltages_primary_decode busPrimary zeroBuf BatteryData.zero [] _ rfl
      (by decide) (by decide)).1,
   ((readBatteryVoltages_primary_decode busPrimary zeroBuf BatteryData.zero [] _ rfl
      (by decide) (by decide)).2.2.2.2.2 (by decide)).1,
   ((readBatteryVoltages_primary_decode busPrimary zeroBuf BatteryData.zero [] _ rfl
      (by decide) (by decide)).2.2.2.2.2 (by decide)).2.1,
   ((readBatteryVoltages_primary_decode busPrimary zeroBuf BatteryData.zero [] _ rfl
      (by decide) (by decide)).2.2.2.2.2 (by decide)).2.2.1,
   ((readBatteryVoltages_primary_decode busPrimary zeroBuf BatteryData.zero [] _ rfl
      (by decide) (by decide)).2.2.2.2.2 (by decide)).2.2.2.1⟩

/-- C9. After every successful identity/status read the ROM identity holds the
first eight bytes of the response `p`, and the manufacturing date text is "20",
`%02d` of byte 0, "-", `%02d` of byte 1, "-", `%02d` of byte 2, stored whole
(at most 13 characters in the 16-byte field).  For bytes below 100 these are
two decimal digits each; for 25, 3, 9 the text is "2025-03-09". -/
theorem readBatteryInfo_mfgDate (bus : Bus) (rsp : Buf) (bd : BatteryData) (w : World)
    (p : TxResult)
    (hp : p = cmdAndRead33 bus (Buf.ofList [0xAA, 0x00]) 2 rsp 40 (delay 400 (setEnable true w)))
    (hok : (readBatteryInfo bus rsp bd w).ok = true) :
    (∀ i, i < 8 → (readBatteryInfo bus rsp bd w).bd.romId i = p.rsp i) ∧
    cstr (readBatteryInfo bus rsp bd w).bd.mfgDate 16
      = ['2', '0'] ++ fmt02d (p.rsp 0) ++ ['-'] ++ fmt02d (p.rsp 1) ++ ['-'] ++ fmt02d (p.rsp 2) ∧
    (cstr (readBatteryInfo bus rsp bd w).bd.mfgDate 16).length ≤ 13 ∧
    (p.rsp 0 < 100 → p.rsp 1 < 100 → p.rsp 2 < 100 →
      cstr (readBatteryInfo bus rsp bd w).bd.mfgDate 16
        = ['2', '0', decDigit (p.rsp 0 / 10), decDigit (p.rsp 0 % 10), '-',
            decDigit (p.rsp 1 / 10), decDigit (p.rsp 1 % 10), '-',
            decDigit (p.rsp 2 / 10), decDigit (p.rsp 2 % 10)]) ∧
    (p.rsp 0 = 25 → p.rsp 1 = 3 → p.rsp 2 = 9 →
      cstr (readBatteryInfo bus rsp bd w).bd.mfgDate 16
        = ['2', '0', '2', '5', '-', '0', '3', '-', '0', '9']) := by
  subst hp
  rw [readBatteryInfo_ok_iff] at hok
  have hb := cmdAndRead33_retry_bytes bus (Buf.ofList [0xAA, 0x00]) 2 40 3 rsp
    (delay 400 (setEnable true w)) hok
  generalize hq : cmdAndRead33 bus (Buf.ofList [0xAA, 0x00]) 2 rsp 40
    (delay 400 (setEnable true w)) = q at hok
  have hbq : ∀ j, j < 40 + 8 → q.rsp j < 256 := by
    intro j hj; rw [← hq]; exact hb j hj
  have hy := fmt02d_chars (q.rsp 0) (hbq 0 (by norm_num))
  have hm := fmt02d_chars (q.rsp 1) (hbq 1 (by norm_num))
  have hd := fmt02d_chars (q.rsp 2) (hbq 2 (by norm_num))
  have hrom : (readBatteryInfo bus rsp bd w).bd.romId = memcpy bd.romId q.rsp 8 := by
    unfold readBatteryInfo
    dsimp only
    rw [hq, if_pos hok]
  have hdate : (readBatteryInfo bus rsp bd w).bd.mfgDate
      = snprintf bd.mfgDate 16 (['2', '0'] ++ fmt02d (q.rsp 0) ++ ['-'] ++ fmt02d (q.rsp 1)
          ++ ['-'] ++ fmt02d (q.rsp 2)) := by
    unfold readBatteryInfo
    dsimp only
    rw [hq, if_pos hok]
    rfl
  have hlen : (['2', '0'] ++ fmt02d (q.rsp 0) ++ ['-'] ++ fmt02d (q.rsp 1)
      ++ ['-'] ++ fmt02d (q.rsp 2)).length ≤ 13 := by
    simp only [List.length_append, List.length_cons, List.length_nil]
    have := hy.1; have := hm.1; have := hd.1
    omega
  have hchars : ∀ c ∈ ['2', '0'] ++ fmt02d (q.rsp 0) ++ ['-'] ++ fmt02d (q.rsp 1)
      ++ ['-'] ++ fmt02d (q.rsp 2), c.toNat ≠ 0 ∧ c.toNat < 256 := by
    intro c hc
    simp only [List.mem_append, List.mem_cons, List.mem_singleton, List.not_mem_nil,
      or_false] at hc
    rcases hc with ((((hc | hc) | hc) | hc) | hc) | hc
    · rcases hc with rfl | rfl <;> decide
    · exact hy.2 c hc
    · subst hc; decide
    · exact hm.2 c hc
    · subst hc; decide
    · exact hd.2 c hc
  have hstr : cstr (readBatteryInfo bus rsp bd w).bd.mfgDate 16
      = ['2', '0'] ++ fmt02d (q.rsp 0) ++ ['-'] ++ fmt02d (q.rsp 1) ++ ['-']
          ++ fmt02d (q.rsp 2) := by
    rw [hdate, cstr_snprintf _ _ _ (by omega) hchars]
  refine ⟨?_, hstr, ?_, ?_, ?_⟩
  · intro i hi
    rw [hrom]
    simp [memcpy, hi]
  · rw [hstr]; exact hlen
  · intro e0 e1 e2
    rw [hstr, fmt02d_two_digits _ e0, fmt02d_two_digits _ e1, fmt02d_two_digits _ e2]
    rfl
  · intro e0 e1 e2
    rw [hstr, e0, e1, e2]
    decide

/-- C9 at a concrete input: ROM identity bytes 25, 3, 9. -/
theorem readBatteryInfo_mfgDate_witness :
    (readBatteryInfo busDate zeroBuf BatteryData.zero []).ok = true ∧
    cstr (readBatteryInfo busDate zeroBuf BatteryData.zero []).bd.mfgDate 16
      = ['2', '0', '2', '5', '-', '0', '3', '-', '0', '9'] :=
  ⟨by decide,
   (readBatteryInfo_mfgDate busDate zeroBuf BatteryData.zero [] _ rfl (by decide)).2.2.2.2
     (by decide) (by decide) (by decide)⟩

/-- C10. `SWAP_NIBBLES` maps bytes to bytes and is its own inverse on them. -/
theorem SWAP_NIBBLES_self_inverse :
    ∀ x, x < 256 → SWAP_NIBBLES x < 256 ∧ SWAP_NIBBLES (SWAP_NIBBLES x) = x := by
  decide

/-- C10 at a concrete input: the byte 0x12. -/
theorem SWAP_NIBBLES_self_inverse_witness :
    0x12 < 256 ∧ SWAP_NIBBLES 0x12 = 0x21 ∧ SWAP_NIBBLES (SWAP_NIBBLES 0x12) = 0x12 :=
  ⟨by decide, by decide, (SWAP_NIBBLES_self_inverse 0x12 (by decide)).2⟩

/-- C11, the code at a failing input.  For the version command 0x01 the frame with
expectedResponseLen 254 is answered with no byte at all and the frame with 255
with the single byte 0x01; for the probe command 0x31 the frame with 254 is
answered with no byte.  With 253 the answer has 255 bytes.  `sendUSB` takes its
length as a `byte`, so `rsp_len + 2` wraps around at 256. -/
theorem sendUSB_truncates_length :
    (processSerialCommand busIdle zeroBuf zeroBuf [0x01, 0x00, 0xFE, 0x01] []).map
      (fun r => r.out) = some [] ∧
    (processSerialCommand busIdle zeroBuf zeroBuf [0x01, 0x00, 0xFF, 0x01] []).map
      (fun r => r.out) = some [0x01] ∧
    (processSerialCommand busIdle zeroBuf zeroBuf [0x01, 0x00, 0xFE, 0x31] []).map
      (fun r => r.out) = some [] ∧
    (processSerialCommand busIdle zeroBuf zeroBuf [0x01, 0x00, 0xFD, 0x01] []).map
      (fun r => r.out.length) = some 255 := by
  decide

/-- C12. For a complete request frame with leading byte 0x01 whose commandId is
none of 0x01, 0x31, 0x32, 0x33, 0xCC, whatever dataLen, expectedResponseLen and
payload, `processSerialCommand` returns, having consumed the frame, written
exactly the two bytes commandId, 0x00 to the serial port and touched nothing but
the enable line (high, 400 ms, low): no reset, no byte written to or read from
the bus. -/
theorem processSerialCommand_unknown (bus : Bus) (data rsp : Buf) (w : World)
    (len rsp_len cmd : Nat) (payload rest : List Nat)
    (hlen : len < 256) (hcmd : cmd < 256) (hpay : payload.length = len)
    (hunk : cmd ≠ 0x01 ∧ cmd ≠ 0x31 ∧ cmd ≠ 0x32 ∧ cmd ≠ 0x33 ∧ cmd ≠ 0xCC) :
    ∃ r, processSerialCommand bus data rsp (0x01 :: len :: rsp_len :: cmd :: (payload ++ rest)) w
        = some r ∧
      r.out = [cmd, 0x00] ∧ r.input = rest ∧
      r.world = Event.enable false :: Event.delay 400 :: Event.enable true :: w ∧
      resetCount r.world = resetCount w ∧ writeCount r.world = writeCount w ∧
      readCount r.world = readCount w := by
  obtain ⟨d, hd⟩ := readData_append payload 0 data rest
  rw [hpay] at hd
  obtain ⟨h1, h2, h3, h4, h5⟩ := hunk
  have hdisp : ∀ x, processSerialCommand.dispatch bus cmd d len rsp (rsp_len % 256) x
      = (rsp, 0, x) := by
    intro x
    unfold processSerialCommand.dispatch
    rw [if_neg h1, if_neg (by tauto), if_neg h4, if_neg h5]
  refine ⟨⟨[cmd, 0x00], rest, (rsp.set 0 cmd).set 1 0,
    Event.enable false :: Event.delay 400 :: Event.enable true :: w⟩, ?_, rfl, rfl, rfl, ?_, ?_, ?_⟩
  · unfold processSerialCommand
    simp only [Nat.mod_eq_of_lt hlen, Nat.mod_eq_of_lt hcmd, hd, hdisp]
    simp [sendUSB, sendUSB.loop, Buf.set, setEnable, delay]
  · simp [resetCount]
  · simp [writeCount]
  · simp [readCount]

/-- C12 at a concrete input: command 0x55 with two payload bytes, followed by one more byte. -/
theorem processSerialCommand_unknown_witness :
    (processSerialCommand busAnswering zeroBuf zeroBuf [0x01, 0x02, 0x07, 0x55, 9, 9, 4] []).map
      (fun r => (r.out, r.input, r.world))
      = some ([0x55, 0x00], [4], [Event.enable false, Event.delay 400, Event.enable true]) := by
  obtain ⟨r, h1, h2, h3, h4, _⟩ := processSerialCommand_unknown busAnswering zeroBuf zeroBuf []
    0x02 0x07 0x55 [9, 9] [4] (by decide) (by decide) rfl (by decide)
  rw [show ([0x01, 0x02, 0x07, 0x55, 9, 9, 4] : List Nat)
    = 0x01 :: 0x02 :: 0x07 :: 0x55 :: ([9, 9] ++ [4]) from rfl, h1]
  simp [h2, h3, h4]

/-- C13. With no pack on the bus (every reset detects no presence, every byte reads
0xFF), any finite sequence of `readBatteryInfo`, `readBatteryModel` and
`readBatteryVoltages` calls started on the zeroed snapshot returns false from
every call and leaves the snapshot zeroed, `valid` false included. -/
theorem absent_pack_session (bus : Bus) (hp : ∀ h, (makita.reset bus h).1 = false)
    (hd : ∀ h, (makita.read bus h).1 = 0xFF) (ops : List (ReadOp × Buf)) (w : World) :
    (runOps bus ops BatteryData.zero w).flags = List.replicate ops.length false ∧
    (runOps bus ops BatteryData.zero w).bd = BatteryData.zero ∧
    (runOps bus ops BatteryData.zero w).bd.valid = false := by
  have hop : ∀ op rsp bd x, (runOp bus op rsp bd x).ok = false ∧ (runOp bus op rsp bd x).bd = bd := by
    intro op rsp bd x
    cases op
    · exact readBatteryInfo_absent bus hp rsp bd x
    · exact readBatteryModel_absent bus hp hd rsp bd x
    · exact readBatteryVoltages_absent bus hp rsp bd x
  have hall : ∀ (l : List (ReadOp × Buf)) bd x,
      (runOps bus l bd x).flags = List.replicate l.length false ∧ (runOps bus l bd x).bd = bd := by
    intro l
    induction l with
    | nil => intro bd x; exact ⟨rfl, rfl⟩
    | cons o l ih =>
      intro bd x
      obtain ⟨op, rsp⟩ := o
      rw [runOps]
      dsimp only
      rw [(hop op rsp bd x).1, (hop op rsp bd x).2, (ih _ _).1, (ih _ _).2]
      exact ⟨rfl, rfl⟩
  refine ⟨(hall ops _ w).1, (hall ops _ w).2, ?_⟩
  rw [(hall ops _ w).2]
  rfl

/-- C13 at a concrete input: the three reads in a row without a pack. -/
theorem absent_pack_session_witness :
    (∀ h, (makita.reset busAbsent h).1 = false) ∧
    (∀ h, (makita.read busAbsent h).1 = 0xFF) ∧
    (runOps busAbsent [(ReadOp.info, zeroBuf), (ReadOp.model, zeroBuf),
      (ReadOp.voltages, zeroBuf)] BatteryData.zero []).flags = [false, false, false] ∧
    (runOps busAbsent [(ReadOp.info, zeroBuf), (ReadOp.model, zeroBuf),
      (ReadOp.voltages, zeroBuf)] BatteryData.zero []).bd = BatteryData.zero :=
  ⟨fun _ => rfl, fun _ => rfl,
   (absent_pack_session busAbsent (fun _ => rfl) (fun _ => rfl) _ []).1,
   (absent_pack_session busAbsent (fun _ => rfl) (fun _ => rfl) _ []).2.1⟩

/-- C14. For each of `readBatteryInfo`, `readBatteryModel` and
`readBatteryVoltages`, on every bus: the trace of the call starts with the enable
line driven high followed by the 400 ms delay, before anything happens on the
bus, and ends with the enable line driven low, so the line is low on return
whatever happened in between. -/
theorem read_operations_enable_line (bus : Bus) (rsp : Buf) (bd : BatteryData) (w : World) :
    ((∃ mid, (readBatteryInfo bus rsp bd w).world
        = Event.enable false :: (mid ++ Event.delay 400 :: Event.enable true :: w)) ∧
      enableLine (readBatteryInfo bus rsp bd w).world = some false) ∧
    ((∃ mid, (readBatteryModel bus rsp bd w).world
        = Event.enable false :: (mid ++ Event.delay 400 :: Event.enable true :: w)) ∧
      enableLine (readBatteryModel bus rsp bd w).world = some false) ∧
    ((∃ mid, (readBatteryVoltages bus rsp bd w).world
        = Event.enable false :: (mid ++ Event.delay 400 :: Event.enable true :: w)) ∧
      enableLine (readBatteryVoltages bus rsp bd w).world = some false) := by
  obtain ⟨x1, h1, s1⟩ := readBatteryInfo_world bus rsp bd w
  obtain ⟨x2, h2, s2⟩ := readBatteryModel_world bus rsp bd w
  obtain ⟨x3, h3, s3⟩ := readBatteryVoltages_world bus rsp bd w
  exact ⟨enable_frame w x1 _ h1 s1, enable_frame w x2 _ h2 s2, enable_frame w x3 _ h3 s3⟩

/-- C15. In `cmdAndRead33`, when the first reset detects presence and one of the
`rsp_len + 8` bytes stored by the first attempt `a` differs from 0xFF, the
function returns true with the buffer and the trace of that attempt: one reset,
the enable line untouched (no power cycle), and the buffer holding at positions
0 .. `rsp_len + 7` the bytes read from the bus in the order they were read
(8 identity bytes, then the response). -/
theorem cmdAndRead33_first_attempt (bus : Bus) (cmd : Buf) (cmd_len : Nat) (rsp : Buf)
    (rsp_len : Nat) (w : World) (a : Buf × World)
    (hpres : (makita.reset bus w).1 = true)
    (ha : a = readLoop bus rsp_len 8
      (readLoop bus 8 0 rsp
        (makita.write 0x33 (delayMicroseconds 310 (makita.reset bus w).2))).1
      (writeLoop cmd cmd_len 0 (readLoop bus 8 0 rsp
        (makita.write 0x33 (delayMicroseconds 310 (makita.reset bus w).2))).2))
    (hne : ∃ j, j < rsp_len + 8 ∧ a.1 j ≠ 0xFF) :
    (cmdAndRead33 bus cmd cmd_len rsp rsp_len w).ok = true ∧
    (cmdAndRead33 bus cmd cmd_len rsp rsp_len w).rsp = a.1 ∧
    (cmdAndRead33 bus cmd cmd_len rsp rsp_len w).world = a.2 ∧
    resetCount (cmdAndRead33 bus cmd cmd_len rsp rsp_len w).world = resetCount w + 1 ∧
    enableCount false (cmdAndRead33 bus cmd cmd_len rsp rsp_len w).world
      = enableCount false w ∧
    enableCount true (cmdAndRead33 bus cmd cmd_len rsp rsp_len w).world
      = enableCount true w ∧
    readsOf (cmdAndRead33 bus cmd cmd_len rsp rsp_len w).world
      = readsOf w
        ++ (List.range (rsp_len + 8)).map (cmdAndRead33 bus cmd cmd_len rsp rsp_len w).rsp := by
  have hv : validLoop a.1 (rsp_len + 8) 0 = true := by
    obtain ⟨j, h1, h2⟩ := hne
    exact validLoop_true _ _ _ ⟨j, Nat.zero_le j, by omega, h2⟩
  have hrun : cmdAndRead33 bus cmd cmd_len rsp rsp_len w = ⟨true, a.1, a.2⟩ := by
    unfold cmdAndRead33
    rw [cmdAndRead33.retry, if_neg (by simp [hpres])]
    dsimp only
    rw [← ha, if_pos hv]
  have hreset : (makita.reset bus w).2 = Event.reset true :: w := by
    have : bus.presence w = true := hpres
    simp [makita.reset, this]
  obtain ⟨c1, c2, c3, c4, c6⟩ := counts_opcode 0x33 w
  rw [hrun]
  dsimp only
  refine ⟨rfl, rfl, rfl, ?_, ?_, ?_, ?_⟩
  · rw [ha, readLoop_resetCount, writeLoop_resetCount, readLoop_resetCount, hreset, c1]
  · rw [ha, readLoop_enableCount, writeLoop_enableCount, readLoop_enableCount, hreset, c3]
  · rw [ha, readLoop_enableCount, writeLoop_enableCount, readLoop_enableCount, hreset, c4]
  · subst ha
    have e1 : readsOf (readLoop bus rsp_len 8
        (readLoop bus 8 0 rsp
          (makita.write 0x33 (delayMicroseconds 310 (makita.reset bus w).2))).1
        (writeLoop cmd cmd_len 0 (readLoop bus 8 0 rsp
          (makita.write 0x33 (delayMicroseconds 310 (makita.reset bus w).2))).2)).2
        = (readsOf w ++ (List.range 8).map (fun k => (readLoop bus 8 0 rsp
            (makita.write 0x33 (delayMicroseconds 310 (makita.reset bus w).2))).1 (0 + k)))
          ++ (List.range rsp_len).map (fun k => (readLoop bus rsp_len 8
              (readLoop bus 8 0 rsp
                (makita.write 0x33 (delayMicroseconds 310 (makita.reset bus w).2))).1
              (writeLoop cmd cmd_len 0 (readLoop bus 8 0 rsp
                (makita.write 0x33 (delayMicroseconds 310 (makita.reset bus w).2))).2)).1
            (8 + k)) := by
      rw [readLoop_readsOf, writeLoop_readsOf, readLoop_readsOf]
      rfl
    rw [e1, Nat.add_comm rsp_len 8, List.range_add, List.map_append, List.map_map,
      List.append_assoc]
    congr 2
    apply List.map_congr_left
    intro k hk
    have hk8 : k < 8 := List.mem_range.mp hk
    rw [Nat.zero_add, readLoop_buf_outside _ _ _ _ _ _ (Or.inl hk8)]

/-- C15 at a concrete input: the identity query on a pack whose ROM identity starts with 25. -/
theorem cmdAndRead33_first_attempt_witness :
    (cmdAndRead33 busDate (Buf.ofList [0xAA, 0x00]) 2 zeroBuf 40 []).ok = true ∧
    resetCount (cmdAndRead33 busDate (Buf.ofList [0xAA, 0x00]) 2 zeroBuf 40 []).world = 1 ∧
    enableCount false (cmdAndRead33 busDate (Buf.ofList [0xAA, 0x00]) 2 zeroBuf 40 []).world
      = 0 :=
  ⟨(cmdAndRead33_first_attempt busDate (Buf.ofList [0xAA, 0x00]) 2 zeroBuf 40 [] _
      (by decide) rfl ⟨0, by decide, by decide⟩).1,
   (cmdAndRead33_first_attempt busDate (Buf.ofList [0xAA, 0x00]) 2 zeroBuf 40 [] _
      (by decide) rfl ⟨0, by decide, by decide⟩).2.2.2.1,
   (cmdAndRead33_first_attempt busDate (Buf.ofList [0xAA, 0x00]) 2 zeroBuf 40 [] _
      (by decide) rfl ⟨0, by decide, by decide⟩).2.2.2.2.1⟩

/-- C16. On every bus one `cmdAndRead33` or `cmdAndReadCC` transaction performs at
most 3 resets; it drives the enable line low, and high, exactly as many times
as resets detected no presence (one power cycle for each, none otherwise); when
all 3 resets fail it returns false without having written a byte to the bus;
and its trace is bounded, so it terminates. -/
theorem cmdAndRead_retry_budget (bus : Bus) (cmd : Buf) (cmd_len : Nat) (rsp : Buf)
    (rsp_len : Nat) (w : World) :
    (resetCount (cmdAndRead33 bus cmd cmd_len rsp rsp_len w).world ≤ resetCount w + 3 ∧
      enableCount false (cmdAndRead33 bus cmd cmd_len rsp rsp_len w).world + failedResetCount w
        = enableCount false w
          + failedResetCount (cmdAndRead33 bus cmd cmd_len rsp rsp_len w).world ∧
      enableCount true (cmdAndRead33 bus cmd cmd_len rsp rsp_len w).world + failedResetCount w
        = enableCount true w
          + failedResetCount (cmdAndRead33 bus cmd cmd_len rsp rsp_len w).world ∧
      (failedResetCount (cmdAndRead33 bus cmd cmd_len rsp rsp_len w).world
          = failedResetCount w + 3 →
        (cmdAndRead33 bus cmd cmd_len rsp rsp_len w).ok = false ∧
        writeCount (cmdAndRead33 bus cmd cmd_len rsp rsp_len w).world = writeCount w) ∧
      (cmdAndRead33 bus cmd cmd_len rsp rsp_len w).world.length
        ≤ w.length + 3 * (19 + 2 * cmd_len + 2 * rsp_len)) ∧
    (resetCount (cmdAndReadCC bus cmd cmd_len rsp rsp_len w).world ≤ resetCount w + 3 ∧
      enableCount false (cmdAndReadCC bus cmd cmd_len rsp rsp_len w).world + failedResetCount w
        = enableCount false w
          + failedResetCount (cmdAndReadCC bus cmd cmd_len rsp rsp_len w).world ∧
      enableCount true (cmdAndReadCC bus cmd cmd_len rsp rsp_len w).world + failedResetCount w
        = enableCount true w
          + failedResetCount (cmdAndReadCC bus cmd cmd_len rsp rsp_len w).world ∧
      (failedResetCount (cmdAndReadCC bus cmd cmd_len rsp rsp_len w).world
          = failedResetCount w + 3 →
        (cmdAndReadCC bus cmd cmd_len rsp rsp_len w).ok = false ∧
        writeCount (cmdAndReadCC bus cmd cmd_len rsp rsp_len w).world = writeCount w) ∧
      (cmdAndReadCC bus cmd cmd_len rsp rsp_len w).world.length
        ≤ w.length + 3 * (5 + 2 * cmd_len + 2 * rsp_len)) := by
  obtain ⟨r, f, h1, h2, h3, h4, h5, h6, h7, h8⟩ :=
    cmdAndRead33_retry_budget bus cmd cmd_len rsp_len 3 rsp w
  obtain ⟨r', f', g1, g2, g3, g4, g5, g6, g7, g8⟩ :=
    cmdAndReadCC_retry_budget bus cmd cmd_len rsp_len 3 rsp w
  refine ⟨⟨?_, ?_, ?_, ?_, h8⟩, ⟨?_, ?_, ?_, ?_, g8⟩⟩
  · show resetCount (cmdAndRead33.retry bus cmd cmd_len rsp_len 3 rsp w).world ≤ _
    omega
  · show enableCount false (cmdAndRead33.retry bus cmd cmd_len rsp_len 3 rsp w).world + _
      = _ + failedResetCount (cmdAndRead33.retry bus cmd cmd_len rsp_len 3 rsp w).world
    omega
  · show enableCount true (cmdAndRead33.retry bus cmd cmd_len rsp_len 3 rsp w).world + _
      = _ + failedResetCount (cmdAndRead33.retry bus cmd cmd_len rsp_len 3 rsp w).world
    omega
  · intro hf
    exact h7 (by
      have : failedResetCount (cmdAndRead33.retry bus cmd cmd_len rsp_len 3 rsp w).world
          = failedResetCount w + 3 := hf
      omega)
  · show resetCount (cmdAndReadCC.retry bus cmd cmd_len rsp_len 3 rsp w).world ≤ _
    omega
  · show enableCount false (cmdAndReadCC.retry bus cmd cmd_len rsp_len 3 rsp w).world + _
      = _ + failedResetCount (cmdAndReadCC.retry bus cmd cmd_len rsp_len 3 rsp w).world
    omega
  · show enableCount true (cmdAndReadCC.retry bus cmd cmd_len rsp_len 3 rsp w).world + _
      = _ + failedResetCount (cmdAndReadCC.retry bus cmd cmd_len rsp_len 3 rsp w).world
    omega
  · intro hf
    exact g7 (by
      have : failedResetCount (cmdAndReadCC.retry bus cmd cmd_len rsp_len 3 rsp w).world
          = failedResetCount w + 3 := hf
      omega)

/-- C16 at a concrete input: the identity query without a pack fails after 3
failed resets, nothing written. -/
theorem cmdAndRead_retry_budget_witness :
    failedResetCount (cmdAndRead33 busAbsent (Buf.ofList [0xAA, 0x00]) 2 zeroBuf 40 []).world
      = 3 ∧
    (cmdAndRead33 busAbsent (Buf.ofList [0xAA, 0x00]) 2 zeroBuf 40 []).ok = false ∧
    writeCount (cmdAndRead33 busAbsent (Buf.ofList [0xAA, 0x00]) 2 zeroBuf 40 []).world = 0 :=
  ⟨by decide,
   ((cmdAndRead_retry_budget busAbsent (Buf.ofList [0xAA, 0x00]) 2 zeroBuf 40 []).1.2.2.2.1
      (by decide)).1,
   ((cmdAndRead_retry_budget busAbsent (Buf.ofList [0xAA, 0x00]) 2 zeroBuf 40 []).1.2.2.2.1
      (by decide)).2⟩

/-- C17, the code at a failing input.  The local `rsp` has 255 bytes, indices 0 to
254.  With the memory behind it zero on entry, the SkipRom passthrough 0xCC with
expectedResponseLen 255 leaves 0xFF at indices 255 and 256 on an idle bus (the
final `memset`) and 0xA5 on an answering bus (the read loop), and the
BroadcastReadRom passthrough 0x33 with expectedResponseLen 246 leaves 0xA5 at
index 255: writes through `&rsp[2]` land behind the array. -/
theorem passthrough_writes_past_rsp :
    zeroBuf 255 = 0 ∧ zeroBuf 256 = 0 ∧
    (processSerialCommand busIdle zeroBuf zeroBuf [0x01, 0x00, 0xFF, 0xCC] []).map
      (fun r => (r.rsp 255, r.rsp 256)) = some (0xFF, 0xFF) ∧
    (processSerialCommand busAnswering zeroBuf zeroBuf [0x01, 0x00, 0xFF, 0xCC] []).map
      (fun r => (r.rsp 255, r.rsp 256)) = some (0xA5, 0xA5) ∧
    (processSerialCommand busAnswering zeroBuf zeroBuf [0x01, 0x00, 0xF6, 0x33] []).map
      (fun r => r.rsp 255) = some 0xA5 := by
  decide

/-! ## Further properties -/

/-- When the primary model transaction fails and the fallback probe reads 0xFF
in either byte, `readBatteryModel` returns false and leaves the snapshot as it
was. -/
theorem readBatteryModel_false_of_failed_primary (bus : Bus) (rsp : Buf) (bd : BatteryData)
    (w : World) (p : TxResult)
    (hp : p = cmdAndReadCC bus (Buf.ofList [0xDC, 0x0C]) 2 rsp 10 (delay 400 (setEnable true w)))
    (hfail : p.ok = false)
    (hprobe : (f0513Probe bus 0x31 p.world).1 = 0xFF ∨ (f0513Probe bus 0x31 p.world).2.1 = 0xFF) :
    (readBatteryModel bus rsp bd w).ok = false ∧ (readBatteryModel bus rsp bd w).bd = bd := by
  unfold readBatteryModel
  dsimp only
  rw [← hp, if_neg (by simp [hfail]), if_neg (by tauto)]
  exact ⟨hfail, rfl⟩

/-- A pack that never drives the bus: `readBatteryModel` returns false. -/
theorem readBatteryModel_false_of_failed_primary_witness :
    (readBatteryModel busIdle zeroBuf BatteryData.zero []).ok = false ∧
    (readBatteryModel busIdle zeroBuf BatteryData.zero []).bd = BatteryData.zero :=
  readBatteryModel_false_of_failed_primary busIdle zeroBuf BatteryData.zero [] _ rfl
    (by decide) (Or.inl (by decide))

/-- When the primary voltage transaction fails and the legacy cell loop fails,
`readBatteryVoltages` returns false. -/
theorem readBatteryVoltages_false_of_failed_primary (bus : Bus) (rsp : Buf) (bd : BatteryData)
    (w : World) (p : TxResult)
    (hp : p = cmdAndReadCC bus (Buf.ofList [0xD7, 0x00, 0x00, 0xFF]) 4 rsp 29
      (delay 400 (setEnable true w)))
    (hfail : p.ok = false)
    (hcells : (legacyCells bus 5 0 p.rsp bd.cellVoltage p.world).ok = false) :
    (readBatteryVoltages bus rsp bd w).ok = false := by
  unfold readBatteryVoltages
  dsimp only
  rw [← hp, if_neg (by simp [hfail]), if_neg (by simp [hcells])]
  exact hfail

/-- A pack that never drives the bus: `readBatteryVoltages` returns false. -/
theorem readBatteryVoltages_false_of_failed_primary_witness :
    (readBatteryVoltages busIdle zeroBuf BatteryData.zero []).ok = false :=
  readBatteryVoltages_false_of_failed_primary busIdle zeroBuf BatteryData.zero [] _ rfl
    (by decide) (by decide)

/-- Whenever `readBatteryVoltages` returns false, `packVoltage`, `cellDiff`,
`tempCell` and `tempMosfet` have the values they had before the call. -/
theorem readBatteryVoltages_false_frame (bus : Bus) (rsp : Buf) (bd : BatteryData) (w : World)
    (hfalse : (readBatteryVoltages bus rsp bd w).ok = false) :
    (readBatteryVoltages bus rsp bd w).bd.packVoltage = bd.packVoltage ∧
    (readBatteryVoltages bus rsp bd w).bd.cellDiff = bd.cellDiff ∧
    (readBatteryVoltages bus rsp bd w).bd.tempCell = bd.tempCell ∧
    (readBatteryVoltages bus rsp bd w).bd.tempMosfet = bd.tempMosfet := by
  unfold readBatteryVoltages at hfalse ⊢
  dsimp only at hfalse ⊢
  split at hfalse
  · next h => rw [h.1] at hfalse; exact absurd hfalse (by simp)
  · next h =>
    rw [if_neg h]
    split at hfalse
    · split at hfalse <;> exact absurd hfalse (by simp)
    · next hc => rw [if_neg hc]; exact ⟨rfl, rfl, rfl, rfl⟩

/-- The failed read on `busOneCell` leaves `packVoltage` and `cellDiff` at zero. -/
theorem readBatteryVoltages_false_frame_witness :
    (readBatteryVoltages busOneCell zeroBuf BatteryData.zero []).ok = false ∧
    (readBatteryVoltages busOneCell zeroBuf BatteryData.zero []).bd.packVoltage = 0 ∧
    (readBatteryVoltages busOneCell zeroBuf BatteryData.zero []).bd.cellDiff = 0 :=
  ⟨by decide,
   (readBatteryVoltages_false_frame busOneCell zeroBuf BatteryData.zero [] (by decide)).1,
   (readBatteryVoltages_false_frame busOneCell zeroBuf BatteryData.zero [] (by decide)).2.1⟩

/-- When the primary voltage query is unanswered and all five legacy cell
queries succeed, `readBatteryVoltages` returns true, `packVoltage` is the
running `float` sum of the five cells starting from 0, `cellDiff` is the `float`
difference `max(0, largest) - min(5, smallest)`, and `tempMosfet` is 0 when the temperature query succeeds and keeps its previous
value (as does `tempCell`) when it fails. -/
theorem readBatteryVoltages_legacy_success (bus : Bus) (rsp : Buf) (bd : BatteryData)
    (w : World) (p : TxResult) (c : LegacyScan) (t : TxResult)
    (hp : p = cmdAndReadCC bus (Buf.ofList [0xD7, 0x00, 0x00, 0xFF]) 4 rsp 29
      (delay 400 (setEnable true w)))
    (hc : c = legacyCells bus 5 0 p.rsp bd.cellVoltage p.world)
    (ht : t = cmdAndReadCC bus (Buf.ofList [0x52]) 1 c.rsp 2 c.world)
    (hun : ¬(p.ok = true ∧ p.rsp 0 ≠ 0xFF)) (hcok : c.ok = true) :
    (readBatteryVoltages bus rsp bd w).ok = true ∧
    (readBatteryVoltages bus rsp bd w).bd.cellVoltage = c.cellVoltage ∧
    (readBatteryVoltages bus rsp bd w).bd.packVoltage
      = fadd (fadd (fadd (fadd (fadd 0 (c.cellVoltage 0)) (c.cellVoltage 1))
          (c.cellVoltage 2)) (c.cellVoltage 3)) (c.cellVoltage 4) ∧
    (readBatteryVoltages bus rsp bd w).bd.cellDiff
      = fsub (max 0 (maxCell c.cellVoltage)) (min 5 (minCell c.cellVoltage)) ∧
    (t.ok = true → (readBatteryVoltages bus rsp bd w).bd.tempMosfet = 0) ∧
    (t.ok = false → (readBatteryVoltages bus rsp bd w).bd.tempMosfet = bd.tempMosfet ∧
      (readBatteryVoltages bus rsp bd w).bd.tempCell = bd.tempCell) := by
  have hs := legacySum_five c.cellVoltage
  unfold readBatteryVoltages
  dsimp only
  rw [← hp, if_neg hun, ← hc, if_pos hcok, ← ht]
  by_cases htok : t.ok = true
  · rw [if_pos htok]
    dsimp only
    rw [hs.1, hs.2.1, hs.2.2]
    exact ⟨rfl, rfl, rfl, rfl, fun _ => rfl, fun h => absurd htok (by simp [h])⟩
  · rw [if_neg htok]
    dsimp only
    rw [hs.1, hs.2.1, hs.2.2]
    exact ⟨rfl, rfl, rfl, rfl, fun h => absurd h htok, fun _ => ⟨rfl, rfl⟩⟩

/-- A legacy pack answering all six queries: the read succeeds with `tempMosfet` 0. -/
theorem readBatteryVoltages_legacy_success_witness :
    (readBatteryVoltages busSixVoltLegacy zeroBuf BatteryData.zero []).ok = true ∧
    (readBatteryVoltages busSixVoltLegacy zeroBuf BatteryData.zero []).bd.tempMosfet = 0 :=
  ⟨(readBatteryVoltages_legacy_success busSixVoltLegacy zeroBuf BatteryData.zero [] _ _ _
      rfl rfl rfl (by decide) (by decide)).1,
   (readBatteryVoltages_legacy_success busSixVoltLegacy zeroBuf BatteryData.zero [] _ _ _
      rfl rfl rfl (by decide) (by decide)).2.2.2.2.1 (by decide)⟩

/-- After a successful primary decode `cellDiff` is the `float` difference of the
largest cell and `min(5, smallest cell)`; it is the `float` difference of the
largest and the smallest cell whenever the smallest cell is at most 5 V. -/
theorem readBatteryVoltages_primary_cellDiff (bus : Bus) (rsp : Buf) (bd : BatteryData)
    (w : World) (p : TxResult)
    (hp : p = cmdAndReadCC bus (Buf.ofList [0xD7, 0x00, 0x00, 0xFF]) 4 rsp 29
      (delay 400 (setEnable true w)))
    (hok : p.ok = true) (hans : p.rsp 0 ≠ 0xFF) :
    (readBatteryVoltages bus rsp bd w).bd.cellDiff
      = fsub (maxCell (readBatteryVoltages bus rsp bd w).bd.cellVoltage)
          (min 5 (minCell (readBatteryVoltages bus rsp bd w).bd.cellVoltage)) ∧
    (minCell (readBatteryVoltages bus rsp bd w).bd.cellVoltage ≤ 5 →
      (readBatteryVoltages bus rsp bd w).bd.cellDiff
        = fsub (maxCell (readBatteryVoltages bus rsp bd w).bd.cellVoltage)
            (minCell (readBatteryVoltages bus rsp bd w).bd.cellVoltage)) := by
  have hfive := primaryCells_five p.rsp bd.cellVoltage
  have hnn : 0 ≤ maxCell (primaryCells p.rsp 5 0 ⟨bd.cellVoltage, 0, 5⟩).cellVoltage := by
    unfold maxCell
    rw [primaryCells_cellVoltage p.rsp 5 0 _ 0 (by norm_num) (by norm_num)]
    refine le_max_of_le_left ?_
    unfold fdiv intToFloat
    exact roundFloat_nonneg _ (div_nonneg
      (roundFloat_nonneg _ (Int.cast_nonneg.mpr (Int.ofNat_nonneg _))) (by norm_num))
  have hdiff : (readBatteryVoltages bus rsp bd w).bd.cellDiff
      = fsub (maxCell (readBatteryVoltages bus rsp bd w).bd.cellVoltage)
          (min 5 (minCell (readBatteryVoltages bus rsp bd w).bd.cellVoltage)) := by
    unfold readBatteryVoltages
    dsimp only
    rw [← hp, if_pos ⟨hok, hans⟩]
    dsimp only
    rw [hfive.1, hfive.2, max_eq_right hnn]
  refine ⟨hdiff, fun hle => ?_⟩
  rw [hdiff, min_eq_right hle]

/-- The frame `primaryFrame`: `cellDiff` is the `float` difference of the largest
and the smallest cell. -/
theorem readBatteryVoltages_primary_cellDiff_witness :
    (readBatteryVoltages busPrimary zeroBuf BatteryData.zero []).bd.cellDiff
      = fsub (maxCell (readBatteryVoltages busPrimary zeroBuf BatteryData.zero []).bd.cellVoltage)
          (minCell (readBatteryVoltages busPrimary zeroBuf BatteryData.zero []).bd.cellVoltage) :=
  (readBatteryVoltages_primary_cellDiff busPrimary zeroBuf BatteryData.zero [] _ rfl
    (by decide) (by decide)).2 (by decide!)

/-- For a complete request frame with leading byte 0x01 and a recognised
commandId, `processSerialCommand` returns, having consumed the frame, and writes
`(expectedResponseLen + 2) mod 256` bytes to the serial port; up to
expectedResponseLen 253 these are commandId, expectedResponseLen and
expectedResponseLen payload bytes.  When the passthrough lengths fit (at most
245 for 0x33, at most 253 for 0xCC) the memory behind the 255-byte array is as
it was. -/
theorem processSerialCommand_response_frame (bus : Bus) (data rsp : Buf) (w : World)
    (len rsp_len cmd : Nat) (payload rest : List Nat)
    (hlen : len < 256) (hrl : rsp_len < 256) (hcmd : cmd < 256) (hpay : payload.length = len)
    (hrec : cmd = 0x01 ∨ cmd = 0x31 ∨ cmd = 0x32 ∨ cmd = 0x33 ∨ cmd = 0xCC) :
    ∃ r, processSerialCommand bus data rsp (0x01 :: len :: rsp_len :: cmd :: (payload ++ rest)) w
        = some r ∧
      r.input = rest ∧
      r.out.length = (rsp_len + 2) % 256 ∧
      (rsp_len ≤ 253 → ∃ body, r.out = cmd :: rsp_len :: body ∧ body.length = rsp_len) ∧
      ((cmd = 0x33 → rsp_len ≤ 245) → (cmd = 0xCC → rsp_len ≤ 253) →
        ∀ j, 255 ≤ j → r.rsp j = rsp j) := by
  obtain ⟨d, hd⟩ := readData_append payload 0 data rest
  rw [hpay] at hd
  have hrun : processSerialCommand bus data rsp
      (0x01 :: len :: rsp_len :: cmd :: (payload ++ rest)) w
      = some ⟨sendUSB (((processSerialCommand.dispatch bus cmd d len rsp rsp_len
            (delay 400 (setEnable true w))).1.set 0 cmd).set 1 rsp_len) (rsp_len + 2), rest,
          ((processSerialCommand.dispatch bus cmd d len rsp rsp_len
            (delay 400 (setEnable true w))).1.set 0 cmd).set 1 rsp_len,
          setEnable false (processSerialCommand.dispatch bus cmd d len rsp rsp_len
            (delay 400 (setEnable true w))).2.2⟩ := by
    unfold processSerialCommand
    simp only [Nat.mod_eq_of_lt hlen, Nat.mod_eq_of_lt hcmd, Nat.mod_eq_of_lt hrl, hd,
      dispatch_rsp_len _ _ _ _ _ _ _ hrec]
    simp
  refine ⟨_, hrun, rfl, ?_, ?_, ?_⟩
  · simp only [sendUSB, sendUSB_loop_length]
  · intro h253
    refine ⟨sendUSB.loop (((processSerialCommand.dispatch bus cmd d len rsp rsp_len
        (delay 400 (setEnable true w))).1.set 0 cmd).set 1 rsp_len) rsp_len 2, ?_,
        sendUSB_loop_length _ _ _⟩
    simp only [sendUSB]
    rw [Nat.mod_eq_of_lt (by omega), sendUSB.loop, sendUSB.loop]
    simp [Buf.set]
  · intro h33 hCC j hj
    simp only [Buf.set]
    rw [if_neg (by omega), if_neg (by omega)]
    exact dispatch_buf_outside bus cmd d len rsp rsp_len _ h33 hCC j hj

/-- The version request with expectedResponseLen 3 is answered with 5 bytes. -/
theorem processSerialCommand_response_frame_witness :
    ∃ r, processSerialCommand busIdle zeroBuf zeroBuf [0x01, 0x00, 0x03, 0x01] [] = some r ∧
      r.out.length = 5 := by
  obtain ⟨r, h1, _, h3, _⟩ := processSerialCommand_response_frame busIdle zeroBuf zeroBuf []
    0x00 0x03 0x01 [] [] (by decide) (by decide) (by decide) rfl (Or.inl rfl)
  exact ⟨r, h1, h3⟩

end OBI
